import Mathlib

/-!
Verification of the sentry event-stream post-processing core.

This file gives a shallow embedding, in Lean 4, of the parts of the
repository that the specification's claims talk about:

* `src/sentry/eventstream/kafka/protocol.py` — the wire codec
  (`get_task_kwargs_for_message`, `get_task_kwargs_for_message_from_headers`,
  the per-version `handle_message` dispatch, and the header decode helpers);
* `src/sentry/eventstream/kafka/backend.py` — the headers-mode producer
  (`_get_headers_for_insert`, `encode_bool`, `encode_list`,
  `strip_none_values`);
* `src/sentry/tasks/post_process.py` — the post-process pipeline
  (`run_post_process_job`, the twelve error-category stages, and the
  `post_process_group` job construction).

Python values that come out of JSON parsing are modelled by the `Json`
inductive below, with the convention that Python `None` corresponds to
`Json.null`.  Machine strings (Kafka header byte strings) are modelled as
Lean `String`s.  The external JSON library (`sentry.utils.json`, not under
`src/`) is modelled from the spec as a canonical compact JSON printer and
a character-level parser; the print→parse round-trip is proved below and
is what the headers-mode round-trip claims rest on.

Stateful pipeline stages are embedded as pure functions
`Env → Job → Job × List Effect`, where `Env` packages the answers the
outside world (cache, database, locks, feature flags) gives back to the
stage, and `Effect` records the externally visible actions the stage
performs, in program order.
-/

/-! ## Json: the model of parsed JSON / Python values -/

/-- Parsed JSON values, also used as the model of the Python values that
`json.loads` produces.  Python `None` is represented by `Json.null`. -/
inductive Json where
  | null
  | bool (b : Bool)
  | int (n : Int)
  | str (s : String)
  | arr (elems : List Json)
  | obj (fields : List (String × Json))
  deriving Repr

mutual

def beqJson : Json → Json → Bool
  | .null, .null => true
  | .bool a, .bool b => a == b
  | .int a, .int b => a == b
  | .str a, .str b => a == b
  | .arr a, .arr b => beqItems a b
  | .obj a, .obj b => beqFields a b
  | _, _ => false

def beqItems : List Json → List Json → Bool
  | [], [] => true
  | a :: as, b :: bs => beqJson a b && beqItems as bs
  | _, _ => false

def beqFields : List (String × Json) → List (String × Json) → Bool
  | [], [] => true
  | (k, v) :: as, (k', v') :: bs => k == k' && beqJson v v' && beqFields as bs
  | _, _ => false

end

mutual

theorem beqJson_refl : ∀ j, beqJson j j = true
  | .null => rfl
  | .bool _ => by simp [beqJson]
  | .int _ => by simp [beqJson]
  | .str _ => by simp [beqJson]
  | .arr es => by simpa [beqJson] using beqItems_refl es
  | .obj fs => by simpa [beqJson] using beqFields_refl fs

theorem beqItems_refl : ∀ es, beqItems es es = true
  | [] => rfl
  | e :: es => by simp [beqItems, beqJson_refl e, beqItems_refl es]

theorem beqFields_refl : ∀ fs, beqFields fs fs = true
  | [] => rfl
  | (_, v) :: fs => by simp [beqFields, beqJson_refl v, beqFields_refl fs]

end

mutual

theorem eq_of_beqJson : ∀ a b, beqJson a b = true → a = b
  | .null, .null, _ => rfl
  | .bool _, .bool _, h => by simp [beqJson] at h; simp [h]
  | .int _, .int _, h => by simp [beqJson] at h; simp [h]
  | .str _, .str _, h => by simp [beqJson] at h; simp [h]
  | .arr a, .arr b, h => by
      simp only [beqJson] at h
      exact congrArg Json.arr (eq_of_beqItems a b h)
  | .obj a, .obj b, h => by
      simp only [beqJson] at h
      exact congrArg Json.obj (eq_of_beqFields a b h)

theorem eq_of_beqItems : ∀ a b, beqItems a b = true → a = b
  | [], [], _ => rfl
  | x :: xs, y :: ys, h => by
      simp only [beqItems, Bool.and_eq_true] at h
      rw [eq_of_beqJson x y h.1, eq_of_beqItems xs ys h.2]

theorem eq_of_beqFields : ∀ a b, beqFields a b = true → a = b
  | [], [], _ => rfl
  | (k, v) :: xs, (k', v') :: ys, h => by
      simp only [beqFields, Bool.and_eq_true, beq_iff_eq] at h
      rw [h.1.1, eq_of_beqJson v v' h.1.2, eq_of_beqFields xs ys h.2]

end

instance : DecidableEq Json := fun a b =>
  if h : beqJson a b = true then .isTrue (eq_of_beqJson a b h)
  else .isFalse (fun he => h (he ▸ beqJson_refl a))

/-- The opening-brace character, written by code point to keep it out of
character/string literals. -/
def lbrace : Char := Char.ofNat 123

/-- The closing-brace character. -/
def rbrace : Char := Char.ofNat 125

/-! ## Decimal digits -/

def digitToChar (d : Nat) : Char :=
  match d with
  | 0 => '0' | 1 => '1' | 2 => '2' | 3 => '3' | 4 => '4'
  | 5 => '5' | 6 => '6' | 7 => '7' | 8 => '8' | 9 => '9'
  | _ => '*'

def isDigitCh (c : Char) : Bool := '0' ≤ c && c ≤ '9'

def digitVal (c : Char) : Nat := c.toNat - 48

/-- Decimal digits of `n`, least significant first, by structural recursion
on a fuel bound (so that it evaluates inside the kernel). -/
def natDigitsRev : Nat → Nat → List Nat
  | 0, _ => []
  | f + 1, n => if n = 0 then [] else n % 10 :: natDigitsRev f (n / 10)

theorem natDigitsRev_eq (fuel n : Nat) (h : n ≤ fuel) :
    natDigitsRev fuel n = Nat.digits 10 n := by
  induction fuel generalizing n with
  | zero =>
      interval_cases n
      simp [natDigitsRev]
  | succ f ih =>
      by_cases h0 : n = 0
      · subst h0; simp [natDigitsRev]
      · rw [natDigitsRev, if_neg h0]
        rw [ih (n / 10) (by omega)]
        rw [Nat.digits_def' (by norm_num : 1 < 10) (Nat.pos_of_ne_zero h0)]

/-- Decimal digits of a natural number, most significant first. -/
def natChars (n : Nat) : List Char :=
  if n = 0 then ['0'] else ((natDigitsRev n n).reverse.map digitToChar)

theorem natChars_eq_digits (n : Nat) :
    natChars n = if n = 0 then ['0'] else (Nat.digits 10 n).reverse.map digitToChar := by
  rw [natChars, natDigitsRev_eq n n le_rfl]

/-- Decimal digits of an integer, with a leading minus sign when negative.
This models Python's `str()` of an `int`. -/
def intChars (i : Int) : List Char :=
  if i < 0 then '-' :: natChars i.natAbs else natChars i.natAbs

/-- `str(i)` for a Python integer. -/
def intToStr (i : Int) : String := String.mk (intChars i)

/-- Value of a most-significant-first digit string. -/
def natOfChars (cs : List Char) : Nat := cs.foldl (fun a c => a * 10 + digitVal c) 0

theorem digitToChar_spec (d : Nat) (h : d < 10) :
    isDigitCh (digitToChar d) = true ∧ digitVal (digitToChar d) = d := by
  interval_cases d <;> decide

theorem foldl_digits_acc (L : List Char) (a : Nat) :
    L.foldl (fun a c => a * 10 + digitVal c) a = a * 10 ^ L.length + natOfChars L := by
  induction L generalizing a with
  | nil => simp [natOfChars]
  | cons c cs ih =>
      simp only [List.foldl_cons, natOfChars, List.length_cons, Nat.zero_mul, Nat.zero_add]
      rw [ih (a * 10 + digitVal c), ih (digitVal c)]
      ring

theorem natOfChars_append_one (xs : List Char) (c : Char) :
    natOfChars (xs ++ [c]) = natOfChars xs * 10 + digitVal c := by
  simp [natOfChars, List.foldl_append]

theorem natOfChars_natChars (n : Nat) : natOfChars (natChars n) = n := by
  by_cases h : n = 0
  · subst h; decide
  · rw [natChars_eq_digits]
    simp only [h, if_false]
    have key : ∀ ds : List Nat, (∀ d ∈ ds, d < 10) →
        natOfChars ((ds.reverse).map digitToChar) = Nat.ofDigits 10 ds := by
      intro ds hds
      induction ds with
      | nil => simp [natOfChars]
      | cons d tl ih =>
          simp only [List.reverse_cons, List.map_append, List.map_cons, List.map_nil]
          rw [natOfChars_append_one]
          rw [ih (fun x hx => hds x (List.mem_cons_of_mem _ hx))]
          rw [(digitToChar_spec d (hds d (List.mem_cons_self _ _))).2]
          rw [Nat.ofDigits_cons]
          ring
    rw [key _ (fun d hd => Nat.digits_lt_base (by norm_num) hd)]
    exact_mod_cast Nat.ofDigits_digits 10 n

theorem natChars_digits (n : Nat) : ∀ c ∈ natChars n, isDigitCh c = true := by
  intro c hc
  rw [natChars_eq_digits] at hc
  by_cases h : n = 0
  · subst h; simp at hc; subst hc; decide
  · simp only [h, if_false, List.mem_map, List.mem_reverse] at hc
    obtain ⟨d, hd, rfl⟩ := hc
    exact (digitToChar_spec d (Nat.digits_lt_base (by norm_num) hd)).1

theorem natChars_ne_nil (n : Nat) : natChars n ≠ [] := by
  rw [natChars_eq_digits]
  by_cases h : n = 0
  · subst h; simp
  · simp only [h, if_false, ne_eq, List.map_eq_nil_iff, List.reverse_eq_nil_iff]
    exact Nat.digits_ne_nil_iff_ne_zero.mpr h

/-! ## Canonical JSON printing

Modelled from the spec: the repository serializes with `sentry.utils.json`
(not under `src/`); per §4.2 / §6 of the spec, `group_states` travels as "a
JSON array string" and the message body as a JSON-encoded tuple.  We model
the library as a canonical compact printer (no whitespace; strings escape
the quote and backslash characters) together with a parser below. -/

def escChar (c : Char) : List Char :=
  if c = '"' || c = '\\' then ['\\', c] else [c]

def escapeChars (cs : List Char) : List Char :=
  cs.foldr (fun c acc => escChar c ++ acc) []

mutual

def printJson : Json → List Char
  | .null => 'n' :: 'u' :: 'l' :: 'l' :: []
  | .bool true => 't' :: 'r' :: 'u' :: 'e' :: []
  | .bool false => 'f' :: 'a' :: 'l' :: 's' :: 'e' :: []
  | .int n => intChars n
  | .str s => '"' :: escapeChars s.data ++ ['"']
  | .arr es => '[' :: printItems es ++ [']']
  | .obj fs => lbrace :: printFields fs ++ [rbrace]

def printItems : List Json → List Char
  | [] => []
  | [e] => printJson e
  | e :: rest => printJson e ++ ',' :: printItems rest

def printFields : List (String × Json) → List Char
  | [] => []
  | [(k, v)] => '"' :: escapeChars k.data ++ '"' :: ':' :: printJson v
  | (k, v) :: rest =>
      '"' :: escapeChars k.data ++ '"' :: ':' :: printJson v ++ ',' :: printFields rest

end

/-- `json.dumps` of the modelled library. -/
def jsonDumps (j : Json) : String := String.mk (printJson j)

/-! ## JSON parsing -/

/-- Consume a maximal run of decimal digits, accumulating their value. -/
def parseNatAux : List Char → Nat → Nat × List Char
  | [], acc => (acc, [])
  | c :: cs, acc =>
      if isDigitCh c then parseNatAux cs (acc * 10 + digitVal c) else (acc, c :: cs)

/-- Parse at least one decimal digit. -/
def parseNat1 : List Char → Option (Nat × List Char)
  | [] => none
  | c :: cs => if isDigitCh c then some (parseNatAux cs (digitVal c)) else none

/-- Parse the body of a string literal after the opening quote, up to and
including the closing quote.  A backslash makes the following character
literal. -/
def parseStringBody : List Char → Option (List Char × List Char)
  | [] => none
  | c :: cs =>
      if c = '"' then some ([], cs)
      else if c = '\\' then
        match cs with
        | [] => none
        | e :: cs2 =>
            match parseStringBody cs2 with
            | none => none
            | some (s, r) => some (e :: s, r)
      else
        match parseStringBody cs with
        | none => none
        | some (s, r) => some (c :: s, r)

mutual

def parseVal : Nat → List Char → Option (Json × List Char)
  | 0, _ => none
  | _ + 1, [] => none
  | fuel + 1, c :: cs =>
      if c = 'n' then
        match cs with
        | 'u' :: 'l' :: 'l' :: r => some (.null, r)
        | _ => none
      else if c = 't' then
        match cs with
        | 'r' :: 'u' :: 'e' :: r => some (.bool true, r)
        | _ => none
      else if c = 'f' then
        match cs with
        | 'a' :: 'l' :: 's' :: 'e' :: r => some (.bool false, r)
        | _ => none
      else if c = '"' then
        match parseStringBody cs with
        | some (s, r) => some (.str (String.mk s), r)
        | none => none
      else if c = '-' then
        match parseNat1 cs with
        | some (n, r) => some (.int (-(n : Int)), r)
        | none => none
      else if isDigitCh c then
        match parseNat1 (c :: cs) with
        | some (n, r) => some (.int (n : Int), r)
        | none => none
      else if c = '[' then
        match cs with
        | [] => none
        | c2 :: r =>
            if c2 = ']' then some (.arr [], r)
            else
              match parseItems fuel (c2 :: r) with
              | some (es, r2) => some (.arr es, r2)
              | none => none
      else if c = lbrace then
        match cs with
        | [] => none
        | c2 :: r =>
            if c2 = rbrace then some (.obj [], r)
            else
              match parseFields fuel (c2 :: r) with
              | some (fs, r2) => some (.obj fs, r2)
              | none => none
      else none

def parseItems : Nat → List Char → Option (List Json × List Char)
  | 0, _ => none
  | fuel + 1, cs =>
      match parseVal fuel cs with
      | none => none
      | some (j, r) =>
          match r with
          | ',' :: r2 =>
              match parseItems fuel r2 with
              | some (js, r3) => some (j :: js, r3)
              | none => none
          | ']' :: r2 => some ([j], r2)
          | _ => none

def parseFields : Nat → List Char → Option (List (String × Json) × List Char)
  | 0, _ => none
  | fuel + 1, cs =>
      match cs with
      | '"' :: r =>
          match parseStringBody r with
          | none => none
          | some (k, r1) =>
              match r1 with
              | ':' :: r2 =>
                  match parseVal fuel r2 with
                  | none => none
                  | some (v, r3) =>
                      match r3 with
                      | ',' :: r4 =>
                          match parseFields fuel r4 with
                          | some (fs, r5) => some ((String.mk k, v) :: fs, r5)
                          | none => none
                      | c3 :: r4 =>
                          if c3 = rbrace then some ([(String.mk k, v)], r4) else none
                      | [] => none
              | _ => none
      | _ => none

end

/-- `json.loads` of the modelled library: parse a complete JSON document,
requiring the whole input to be consumed. -/
def jsonLoads (s : String) : Option Json :=
  match parseVal (s.length + 1) s.data with
  | some (j, []) => some j
  | _ => none

/-! ## Print→parse round trip -/

def headIsDigit : List Char → Bool
  | [] => false
  | c :: _ => isDigitCh c

theorem natOfChars_cons (c : Char) (cs : List Char) :
    natOfChars (c :: cs) = digitVal c * 10 ^ cs.length + natOfChars cs := by
  simp only [natOfChars, List.foldl_cons, Nat.zero_mul, Nat.zero_add]
  exact foldl_digits_acc cs (digitVal c)

theorem parseNatAux_spec (L rest : List Char) (acc : Nat)
    (hL : ∀ c ∈ L, isDigitCh c = true) (hr : headIsDigit rest = false) :
    parseNatAux (L ++ rest) acc = (acc * 10 ^ L.length + natOfChars L, rest) := by
  induction L generalizing acc with
  | nil =>
      simp only [List.nil_append, natOfChars, List.foldl_nil, List.length_nil, pow_zero,
        Nat.mul_one, Nat.add_zero]
      cases rest with
      | nil => rfl
      | cons c cs =>
          simp only [headIsDigit] at hr
          simp [parseNatAux, hr]
  | cons c cs ih =>
      have hc := hL c (List.mem_cons_self _ _)
      simp only [List.cons_append, parseNatAux, hc, if_true, List.append_eq]
      rw [ih (acc * 10 + digitVal c) (fun x hx => hL x (List.mem_cons_of_mem _ hx))]
      rw [natOfChars_cons, List.length_cons]
      refine congrArg (fun x => (x, rest)) ?_
      ring

theorem parseNat1_digits (L rest : List Char) (hne : L ≠ [])
    (hL : ∀ c ∈ L, isDigitCh c = true) (hr : headIsDigit rest = false) :
    parseNat1 (L ++ rest) = some (natOfChars L, rest) := by
  cases L with
  | nil => exact absurd rfl hne
  | cons c cs =>
      have hc := hL c (List.mem_cons_self _ _)
      simp only [List.cons_append, parseNat1, hc, if_true]
      rw [parseNatAux_spec cs rest (digitVal c) (fun x hx => hL x (List.mem_cons_of_mem _ hx)) hr]
      rw [natOfChars_cons]

theorem parseNat1_natChars (n : Nat) (rest : List Char) (hr : headIsDigit rest = false) :
    parseNat1 (natChars n ++ rest) = some (n, rest) := by
  rw [parseNat1_digits (natChars n) rest (natChars_ne_nil n) (natChars_digits n) hr]
  rw [natOfChars_natChars]

theorem parseStringBody_escape (s rest : List Char) :
    parseStringBody (escapeChars s ++ '"' :: rest) = some (s, rest) := by
  induction s with
  | nil =>
      show parseStringBody ([] ++ '"' :: rest) = _
      rw [List.nil_append, parseStringBody.eq_def]
      simp
  | cons c cs ih =>
      by_cases h : c = '"' ∨ c = '\\'
      · have he : escapeChars (c :: cs) = '\\' :: c :: escapeChars cs := by
          rcases h with h | h <;> simp [escapeChars, escChar, h]
        rw [he]
        simp only [List.cons_append]
        rw [parseStringBody.eq_def]
        simp [ih]
      · push_neg at h
        have he : escapeChars (c :: cs) = c :: escapeChars cs := by
          simp [escapeChars, escChar, h.1, h.2]
        rw [he]
        simp only [List.cons_append]
        rw [parseStringBody.eq_def]
        simp [ih, h.1, h.2]

theorem string_mk_data (s : String) : String.mk s.data = s := rfl

/-- A decimal digit is none of the characters the value parser treats
specially before its digit branch, nor a closing delimiter. -/
theorem isDigitCh_ne (c : Char) (h : isDigitCh c = true) :
    c ≠ 'n' ∧ c ≠ 't' ∧ c ≠ 'f' ∧ c ≠ '"' ∧ c ≠ '-' ∧ c ≠ ']' ∧ c ≠ rbrace := by
  have hb : 48 ≤ c.toNat ∧ c.toNat ≤ 57 := by
    simp only [isDigitCh, Bool.and_eq_true, decide_eq_true_eq] at h
    rcases h with ⟨h1, h2⟩
    constructor
    · exact h1
    · exact h2
  refine ⟨?_, ?_, ?_, ?_, ?_, ?_, ?_⟩ <;> intro he <;> subst he <;> revert hb <;> decide

theorem natChars_shape (n : Nat) :
    ∃ c cs', natChars n = c :: cs' ∧ isDigitCh c = true := by
  cases hL : natChars n with
  | nil => exact absurd hL (natChars_ne_nil n)
  | cons c cs' =>
      exact ⟨c, cs', rfl, natChars_digits n c (by rw [hL]; exact List.mem_cons_self _ _)⟩

/-- The printed form of any value is nonempty and never starts with a
closing delimiter. -/
theorem printJson_shape (j : Json) :
    ∃ c cs', printJson j = c :: cs' ∧ c ≠ ']' ∧ c ≠ rbrace := by
  cases j with
  | null => exact ⟨'n', _, rfl, by decide, by simp [rbrace]⟩
  | bool b =>
      cases b with
      | false => exact ⟨'f', _, rfl, by decide, by simp [rbrace]⟩
      | true => exact ⟨'t', _, rfl, by decide, by simp [rbrace]⟩
  | int n =>
      show ∃ c cs', intChars n = c :: cs' ∧ _
      rw [intChars]
      by_cases h : n < 0
      · rw [if_pos h]; exact ⟨'-', _, rfl, by decide, by simp [rbrace]⟩
      · rw [if_neg h]
        obtain ⟨c, cs', heq, hd⟩ := natChars_shape n.natAbs
        obtain ⟨_, _, _, _, _, h6, h7⟩ := isDigitCh_ne c hd
        exact ⟨c, cs', heq, h6, h7⟩
  | str s => exact ⟨'"', _, rfl, by decide, by simp [rbrace]⟩
  | arr es => exact ⟨'[', _, rfl, by decide, by simp [rbrace]⟩
  | obj fs => exact ⟨lbrace, _, rfl, by simp [lbrace], by simp [lbrace, rbrace]⟩

theorem printItems_cons (e : Json) (tl : List Json) :
    printItems (e :: tl) = printJson e ++ (if tl = [] then [] else ',' :: printItems tl) := by
  cases tl <;> simp [printItems]

theorem printFields_cons (k : String) (v : Json) (tl : List (String × Json)) :
    printFields ((k, v) :: tl) =
      '"' :: escapeChars k.data ++ '"' :: ':' :: printJson v ++
        (if tl = [] then [] else ',' :: printFields tl) := by
  cases tl <;> simp [printFields]

mutual

def fVal : Json → Nat
  | .null => 1
  | .bool _ => 1
  | .int _ => 1
  | .str _ => 1
  | .arr es => 1 + fItems es
  | .obj fs => 1 + fFields fs

def fItems : List Json → Nat
  | [] => 0
  | e :: tl => 1 + fVal e + fItems tl

def fFields : List (String × Json) → Nat
  | [] => 0
  | (_, v) :: tl => 1 + fVal v + fFields tl

end

theorem fVal_pos (j : Json) : 1 ≤ fVal j := by
  cases j <;> simp [fVal]


theorem headIsDigit_cons (c : Char) (cs : List Char) : headIsDigit (c :: cs) = isDigitCh c := rfl

/-! Reduction lemmas for the parser, one per leading character. -/

theorem parseVal_null_red (f : Nat) (rest : List Char) :
    parseVal (f + 1) ('n' :: 'u' :: 'l' :: 'l' :: rest) = some (.null, rest) := rfl

theorem parseVal_true_red (f : Nat) (rest : List Char) :
    parseVal (f + 1) ('t' :: 'r' :: 'u' :: 'e' :: rest) = some (.bool true, rest) := rfl

theorem parseVal_false_red (f : Nat) (rest : List Char) :
    parseVal (f + 1) ('f' :: 'a' :: 'l' :: 's' :: 'e' :: rest) = some (.bool false, rest) := rfl

theorem parseVal_quote_red (f : Nat) (cs : List Char) :
    parseVal (f + 1) ('"' :: cs) =
      match parseStringBody cs with
      | some (s, r) => some (.str (String.mk s), r)
      | none => none := rfl

theorem parseVal_minus_red (f : Nat) (cs : List Char) :
    parseVal (f + 1) ('-' :: cs) =
      match parseNat1 cs with
      | some (n, r) => some (.int (-(n : Int)), r)
      | none => none := rfl

theorem parseVal_digit_red (f : Nat) (c : Char) (cs : List Char) (h : isDigitCh c = true) :
    parseVal (f + 1) (c :: cs) =
      match parseNat1 (c :: cs) with
      | some (n, r) => some (.int (n : Int), r)
      | none => none := by
  obtain ⟨h1, h2, h3, h4, h5, _, _⟩ := isDigitCh_ne c h
  simp [parseVal, h1, h2, h3, h4, h5, h]

theorem parseVal_lbrack_red (f : Nat) (c2 : Char) (r : List Char) :
    parseVal (f + 1) ('[' :: c2 :: r) =
      (if c2 = ']' then some (.arr [], r)
       else
         match parseItems f (c2 :: r) with
         | some (es, r2) => some (.arr es, r2)
         | none => none) := rfl

theorem parseVal_lbrace_red (f : Nat) (c2 : Char) (r : List Char) :
    parseVal (f + 1) (lbrace :: c2 :: r) =
      (if c2 = rbrace then some (.obj [], r)
       else
         match parseFields f (c2 :: r) with
         | some (fs, r2) => some (.obj fs, r2)
         | none => none) := rfl

theorem parseItems_red (f : Nat) (cs : List Char) :
    parseItems (f + 1) cs =
      match parseVal f cs with
      | none => none
      | some (j, r) =>
          match r with
          | ',' :: r2 =>
              (match parseItems f r2 with
               | some (js, r3) => some (j :: js, r3)
               | none => none)
          | ']' :: r2 => some ([j], r2)
          | _ => none := rfl

theorem parseFields_quote_red (f : Nat) (r : List Char) :
    parseFields (f + 1) ('"' :: r) =
      match parseStringBody r with
      | none => none
      | some (k, r1) =>
          match r1 with
          | ':' :: r2 =>
              (match parseVal f r2 with
               | none => none
               | some (v, r3) =>
                   match r3 with
                   | ',' :: r4 =>
                       (match parseFields f r4 with
                        | some (fs, r5) => some ((String.mk k, v) :: fs, r5)
                        | none => none)
                   | c3 :: r4 =>
                       if c3 = rbrace then some ([(String.mk k, v)], r4) else none
                   | [] => none)
          | _ => none := rfl

theorem parseItems_last (f : Nat) (cs : List Char) (j : Json) (r2 : List Char)
    (h : parseVal f cs = some (j, ']' :: r2)) :
    parseItems (f + 1) cs = some ([j], r2) := by
  rw [parseItems_red, h]
  rfl

theorem parseItems_step (f : Nat) (cs : List Char) (j : Json) (r2 : List Char)
    (h : parseVal f cs = some (j, ',' :: r2)) :
    parseItems (f + 1) cs =
      (match parseItems f r2 with
       | some (js, r3) => some (j :: js, r3)
       | none => none) := by
  rw [parseItems_red, h]
  rfl

theorem parseFields_last (f : Nat) (kcs : List Char) (v : Json) (rest : List Char)
    (hv : parseVal f (printJson v ++ rbrace :: rest) = some (v, rbrace :: rest)) :
    parseFields (f + 1)
        ('"' :: (escapeChars kcs ++ '"' :: (':' :: (printJson v ++ rbrace :: rest))))
      = some ([(String.mk kcs, v)], rest) := by
  rw [parseFields_quote_red, parseStringBody_escape]
  simp only [hv]
  simp [rbrace]

theorem parseFields_step (f : Nat) (kcs : List Char) (v : Json) (Z : List Char)
    (hv : parseVal f (printJson v ++ ',' :: Z) = some (v, ',' :: Z)) :
    parseFields (f + 1)
        ('"' :: (escapeChars kcs ++ '"' :: (':' :: (printJson v ++ ',' :: Z))))
      = (match parseFields f Z with
         | some (fs, r5) => some ((String.mk kcs, v) :: fs, r5)
         | none => none) := by
  rw [parseFields_quote_red, parseStringBody_escape]
  simp [hv]

mutual

theorem parseVal_print : ∀ (j : Json) (fuel : Nat) (rest : List Char),
    fVal j ≤ fuel → headIsDigit rest = false →
    parseVal fuel (printJson j ++ rest) = some (j, rest)
  | .null, fuel, rest, hf, _ => by
      obtain ⟨f, rfl⟩ : ∃ f, fuel = f + 1 := ⟨fuel - 1, by simp [fVal] at hf; omega⟩
      rw [show printJson .null ++ rest = 'n' :: 'u' :: 'l' :: 'l' :: rest from by
        simp [printJson]]
      rw [parseVal_null_red]
  | .bool true, fuel, rest, hf, _ => by
      obtain ⟨f, rfl⟩ : ∃ f, fuel = f + 1 := ⟨fuel - 1, by simp [fVal] at hf; omega⟩
      rw [show printJson (.bool true) ++ rest = 't' :: 'r' :: 'u' :: 'e' :: rest from by
        simp [printJson]]
      rw [parseVal_true_red]
  | .bool false, fuel, rest, hf, _ => by
      obtain ⟨f, rfl⟩ : ∃ f, fuel = f + 1 := ⟨fuel - 1, by simp [fVal] at hf; omega⟩
      rw [show printJson (.bool false) ++ rest = 'f' :: 'a' :: 'l' :: 's' :: 'e' :: rest from by
        simp [printJson]]
      rw [parseVal_false_red]
  | .str s, fuel, rest, hf, _ => by
      obtain ⟨f, rfl⟩ : ∃ f, fuel = f + 1 := ⟨fuel - 1, by simp [fVal] at hf; omega⟩
      rw [show printJson (.str s) ++ rest = '"' :: (escapeChars s.data ++ '"' :: rest) from by
        simp [printJson, List.append_assoc]]
      rw [parseVal_quote_red, parseStringBody_escape]
  | .int n, fuel, rest, hf, hr => by
      obtain ⟨f, rfl⟩ : ∃ f, fuel = f + 1 := ⟨fuel - 1, by simp [fVal] at hf; omega⟩
      show parseVal (f + 1) (intChars n ++ rest) = _
      rw [intChars]
      by_cases hneg : n < 0
      · rw [if_pos hneg, List.cons_append, parseVal_minus_red,
          parseNat1_natChars n.natAbs rest hr]
        have hv : -((n.natAbs : Int)) = n := by omega
        show some (Json.int (-((n.natAbs : Int))), rest) = some (Json.int n, rest)
        rw [hv]
      · rw [if_neg hneg]
        obtain ⟨c, cs', heq, hd⟩ := natChars_shape n.natAbs
        rw [heq, List.cons_append, parseVal_digit_red f c (cs' ++ rest) hd,
          ← List.cons_append, ← heq, parseNat1_natChars n.natAbs rest hr]
        have hv : ((n.natAbs : Int)) = n := by omega
        show some (Json.int ((n.natAbs : Int)), rest) = some (Json.int n, rest)
        rw [hv]
  | .arr [], fuel, rest, hf, _ => by
      obtain ⟨f, rfl⟩ : ∃ f, fuel = f + 1 := ⟨fuel - 1, by simp [fVal, fItems] at hf; omega⟩
      rw [show printJson (.arr []) ++ rest = '[' :: ']' :: rest from by
        simp [printJson, printItems]]
      rw [parseVal_lbrack_red, if_pos rfl]
  | .arr (e :: tl), fuel, rest, hf, _ => by
      simp only [fVal, fItems] at hf
      obtain ⟨f, rfl⟩ : ∃ f, fuel = f + 1 := ⟨fuel - 1, by omega⟩
      have hfi : fItems (e :: tl) ≤ f := by simp only [fItems]; omega
      obtain ⟨c0, cs0, heq, hc0, _⟩ := printJson_shape e
      have hshape : printItems (e :: tl) ++ ']' :: rest
          = c0 :: (cs0 ++ ((if tl = [] then [] else ',' :: printItems tl) ++ ']' :: rest)) := by
        rw [printItems_cons, heq]
        simp [List.append_assoc]
      rw [show printJson (.arr (e :: tl)) ++ rest
          = '[' :: (printItems (e :: tl) ++ ']' :: rest) from by
        simp [printJson, List.append_assoc]]
      rw [hshape, parseVal_lbrack_red, if_neg hc0, ← hshape,
        parseItems_print (e :: tl) f rest (by simp) hfi]
  | .obj [], fuel, rest, hf, _ => by
      obtain ⟨f, rfl⟩ : ∃ f, fuel = f + 1 := ⟨fuel - 1, by simp [fVal, fFields] at hf; omega⟩
      rw [show printJson (.obj []) ++ rest = lbrace :: rbrace :: rest from by
        simp [printJson, printFields]]
      rw [parseVal_lbrace_red, if_pos rfl]
  | .obj ((k, v) :: tl), fuel, rest, hf, _ => by
      simp only [fVal, fFields] at hf
      obtain ⟨f, rfl⟩ : ∃ f, fuel = f + 1 := ⟨fuel - 1, by omega⟩
      have hfi : fFields ((k, v) :: tl) ≤ f := by simp only [fFields]; omega
      have hq : ('"' : Char) ≠ rbrace := by decide
      have hshape : printFields ((k, v) :: tl) ++ rbrace :: rest
          = '"' :: (escapeChars k.data ++ '"' :: ':' :: printJson v ++
              ((if tl = [] then [] else ',' :: printFields tl) ++ rbrace :: rest)) := by
        rw [printFields_cons]
        simp [List.append_assoc]
      rw [show printJson (.obj ((k, v) :: tl)) ++ rest
          = lbrace :: (printFields ((k, v) :: tl) ++ rbrace :: rest) from by
        simp [printJson, List.append_assoc]]
      rw [hshape, parseVal_lbrace_red, if_neg hq, ← hshape,
        parseFields_print ((k, v) :: tl) f rest (by simp) hfi]

theorem parseItems_print : ∀ (es : List Json) (fuel : Nat) (rest : List Char),
    es ≠ [] → fItems es ≤ fuel →
    parseItems fuel (printItems es ++ ']' :: rest) = some (es, rest)
  | [], _, _, hne, _ => absurd rfl hne
  | e :: tl, fuel, rest, _, hf => by
      have h1 := fVal_pos e
      simp only [fItems] at hf
      obtain ⟨f, rfl⟩ : ∃ f, fuel = f + 1 := ⟨fuel - 1, by omega⟩
      cases tl with
      | nil =>
          rw [show printItems [e] ++ ']' :: rest = printJson e ++ ']' :: rest from by
            simp [printItems]]
          exact parseItems_last f _ e rest
            (parseVal_print e f (']' :: rest) (by omega) (by rw [headIsDigit_cons]; decide))
      | cons e2 tl2 =>
          rw [show printItems (e :: e2 :: tl2) ++ ']' :: rest
              = printJson e ++ ',' :: (printItems (e2 :: tl2) ++ ']' :: rest) from by
            rw [printItems_cons]
            simp [List.append_assoc]]
          rw [parseItems_step f _ e (printItems (e2 :: tl2) ++ ']' :: rest)
            (parseVal_print e f (',' :: (printItems (e2 :: tl2) ++ ']' :: rest))
              (by omega) (by rw [headIsDigit_cons]; decide))]
          rw [parseItems_print (e2 :: tl2) f rest (by simp)
            (by simp only [fItems] at hf ⊢; omega)]

theorem parseFields_print : ∀ (fs : List (String × Json)) (fuel : Nat) (rest : List Char),
    fs ≠ [] → fFields fs ≤ fuel →
    parseFields fuel (printFields fs ++ rbrace :: rest) = some (fs, rest)
  | [], _, _, hne, _ => absurd rfl hne
  | (k, v) :: tl, fuel, rest, _, hf => by
      have h1 := fVal_pos v
      simp only [fFields] at hf
      obtain ⟨f, rfl⟩ : ∃ f, fuel = f + 1 := ⟨fuel - 1, by omega⟩
      cases tl with
      | nil =>
          rw [show printFields [(k, v)] ++ rbrace :: rest
              = '"' :: (escapeChars k.data ++ '"' :: (':' :: (printJson v ++ rbrace :: rest)))
              from by
            rw [printFields_cons]
            simp [List.append_assoc]]
          rw [parseFields_last f k.data v rest
            (parseVal_print v f (rbrace :: rest) (by omega)
              (by rw [headIsDigit_cons]; decide))]
      | cons p2 tl2 =>
          rw [show printFields ((k, v) :: p2 :: tl2) ++ rbrace :: rest
              = '"' :: (escapeChars k.data ++ '"' :: (':' :: (printJson v ++
                  ',' :: (printFields (p2 :: tl2) ++ rbrace :: rest)))) from by
            rw [printFields_cons]
            simp [List.append_assoc]]
          rw [parseFields_step f k.data v (printFields (p2 :: tl2) ++ rbrace :: rest)
            (parseVal_print v f (',' :: (printFields (p2 :: tl2) ++ rbrace :: rest))
              (by omega) (by rw [headIsDigit_cons]; decide))]
          rw [parseFields_print (p2 :: tl2) f rest (by simp)
            (by simp only [fFields] at hf ⊢; omega)]

end

mutual

theorem fVal_le : ∀ j : Json, fVal j ≤ (printJson j).length
  | .null => by simp [fVal, printJson]
  | .bool true => by simp [fVal, printJson]
  | .bool false => by simp [fVal, printJson]
  | .int n => by
      have h1 : 1 ≤ (natChars n.natAbs).length :=
        List.length_pos.mpr (natChars_ne_nil n.natAbs)
      simp only [fVal, printJson, intChars]
      by_cases h : n < 0
      · rw [if_pos h]
        simp only [List.length_cons]
        omega
      · rw [if_neg h]; omega
  | .str s => by simp [fVal, printJson]
  | .arr es => by
      have h1 := fItems_le es
      simp only [fVal, printJson, List.length_cons, List.length_append,
        List.length_singleton]
      omega
  | .obj fs => by
      have h1 := fFields_le fs
      simp only [fVal, printJson, List.length_cons, List.length_append,
        List.length_singleton]
      omega

theorem fItems_le : ∀ es : List Json, fItems es ≤ (printItems es).length + 1
  | [] => by simp [fItems, printItems]
  | [e] => by
      have h1 := fVal_le e
      simp only [fItems, printItems]
      omega
  | e :: e2 :: tl => by
      have h1 := fVal_le e
      have h2 := fItems_le (e2 :: tl)
      have h3 : fItems (e :: e2 :: tl) = 1 + fVal e + fItems (e2 :: tl) := rfl
      have h4 : (printItems (e :: e2 :: tl)).length
          = (printJson e).length + 1 + (printItems (e2 :: tl)).length := by
        simp [printItems]
        omega
      omega

theorem fFields_le : ∀ fs : List (String × Json), fFields fs ≤ (printFields fs).length + 1
  | [] => by simp [fFields, printFields]
  | [(k, v)] => by
      have h1 := fVal_le v
      simp only [fFields, printFields, List.length_append, List.length_cons]
      omega
  | (k, v) :: p2 :: tl => by
      have h1 := fVal_le v
      have h2 := fFields_le (p2 :: tl)
      have h3 : fFields ((k, v) :: p2 :: tl) = 1 + fVal v + fFields (p2 :: tl) := rfl
      have h4 : (printFields ((k, v) :: p2 :: tl)).length
          = (escapeChars k.data).length + 3 + (printJson v).length + 1 +
              (printFields (p2 :: tl)).length := by
        simp [printFields]
        omega
      omega

end

/-- The modelled JSON library round-trips: parsing a canonically printed
value returns that value. -/
theorem jsonLoads_jsonDumps (j : Json) : jsonLoads (jsonDumps j) = some j := by
  have hlen : (jsonDumps j).length = (printJson j).length := rfl
  have h1 : fVal j ≤ (jsonDumps j).length + 1 := by
    rw [hlen]
    have h2 := fVal_le j
    omega
  have h4 := parseVal_print j ((jsonDumps j).length + 1) [] h1 rfl
  rw [List.append_nil] at h4
  unfold jsonLoads
  rw [show (jsonDumps j).data = printJson j from rfl, h4]

/-! ## Python runtime helpers

Python exceptions are modelled as error values; the distinctions the code's
`except` clauses observe (`ValueError`/`KeyError` vs. everything else) are
preserved. -/

deriving instance DecidableEq for Except

inductive PyError where
  | invalidPayload
  | invalidVersion
  | unexpectedOperation
  | keyError
  | typeError
  | valueError
  | assertionError
  deriving DecidableEq, Repr

/-- Python truthiness of a parsed-JSON value. -/
def pyTruthy : Json → Bool
  | .null => false
  | .bool b => b
  | .int n => n != 0
  | .str s => s != ""
  | .arr es => !es.isEmpty
  | .obj fs => !fs.isEmpty

/-- `d[k]` on a parsed-JSON value: `KeyError` when the key is absent,
`TypeError` when the value is not a mapping. -/
def pyGetItem : Json → String → Except PyError Json
  | .obj fs, k =>
      match fs.find? (fun kv => kv.1 = k) with
      | some kv => .ok kv.2
      | none => .error .keyError
  | _, _ => .error .typeError

/-- `d.get(k, default)` on a parsed-JSON value; non-mappings have no `.get`
(`AttributeError`, modelled as `typeError`). -/
def pyGetDefault (d : Json) (k : String) (default : Json) : Except PyError Json :=
  match d with
  | .obj fs =>
      .ok (match fs.find? (fun kv => kv.1 = k) with
           | some kv => kv.2
           | none => default)
  | _ => .error .typeError

def isSpaceCh (c : Char) : Bool := c = ' ' || c = '\t' || c = '\n' || c = '\r'

def trimWs (cs : List Char) : List Char :=
  ((cs.dropWhile isSpaceCh).reverse.dropWhile isSpaceCh).reverse

/-- `int(s)` for a Python string: surrounding whitespace, an optional sign,
then at least one decimal digit. -/
def pyIntOfString (s : String) : Option Int :=
  match trimWs s.data with
  | [] => none
  | c :: ds =>
      if c = '-' then
        if !ds.isEmpty && ds.all isDigitCh then some (-(natOfChars ds : Int)) else none
      else if c = '+' then
        if !ds.isEmpty && ds.all isDigitCh then some ((natOfChars ds : Int)) else none
      else
        if (c :: ds).all isDigitCh then some ((natOfChars (c :: ds) : Int)) else none

/-- `int(v)` for a Python value. -/
def pyIntOfJson : Json → Except PyError Int
  | .int n => .ok n
  | .bool b => .ok (if b then 1 else 0)
  | .str s =>
      match pyIntOfString s with
      | some n => .ok n
      | none => .error .valueError
  | _ => .error .typeError

/-- `payload[0]` on a parsed-JSON value. -/
def pyIndexZero : Json → Except PyError Json
  | .arr (x :: _) => .ok x
  | .arr [] => .error .keyError
  | .str s =>
      match s.data with
      | c :: _ => .ok (.str (String.mk [c]))
      | [] => .error .keyError
  | _ => .error .typeError

/-- `payload[1:]` on a parsed-JSON value, as the argument list the handler
is unpacked onto. -/
def pySliceFromOne : Json → Except PyError (List Json)
  | .arr xs => .ok (xs.drop 1)
  | .str s => .ok ((s.data.drop 1).map (fun c => Json.str (String.mk [c])))
  | _ => .error .typeError

/-! ## The wire codec: `src/sentry/eventstream/kafka/protocol.py` -/

/-- The dispatch record an insert decodes to (the Python kwargs dict built
by `get_task_kwargs_for_insert`).  `group_states = none` means the
`"group_states"` key itself was not written (falsy `task_state`); a present
key holding Python `None` is `some Json.null`. -/
structure TaskKwargs where
  event_id : Json
  project_id : Json
  group_id : Json
  primary_hash : Json
  is_new : Json
  is_regression : Json
  is_new_group_environment : Json
  group_states : Option Json
  deriving DecidableEq, Repr

/-- `get_task_kwargs_for_insert` (`protocol.py` lines 29–50). -/
def get_task_kwargs_for_insert (_operation event_data task_state : Json) :
    Except PyError (Option TaskKwargs) := do
  let skip ←
    if pyTruthy task_state then do
      let sc ← pyGetDefault task_state "skip_consume" (.bool false)
      pure (pyTruthy sc)
    else
      pure false
  if skip then
    return none
  let event_id ← pyGetItem event_data "event_id"
  let project_id ← pyGetItem event_data "project_id"
  let group_id ← pyGetItem event_data "group_id"
  let primary_hash ← pyGetItem event_data "primary_hash"
  let is_new ← pyGetItem task_state "is_new"
  let is_regression ← pyGetItem task_state "is_regression"
  let is_new_group_environment ← pyGetItem task_state "is_new_group_environment"
  let group_states ←
    if pyTruthy task_state then do
      let gs ← pyGetDefault task_state "group_states" .null
      pure (some gs)
    else
      pure (none : Option Json)
  return some { event_id, project_id, group_id, primary_hash, is_new, is_regression,
                is_new_group_environment, group_states }

/-- Membership test `operation in unsupported_operations` for a Python
value against a set of strings. -/
def jsonStrIn (j : Json) (set : List String) : Bool :=
  match j with
  | .str s => set.contains s
  | _ => false

/-- `handle_message` as built by `basic_protocol_handler`
(`protocol.py` lines 52–59). -/
def handle_message (unsupported_operations : List String) (operation : Json)
    (data : List Json) : Except PyError (Option TaskKwargs) :=
  if operation = Json.str "insert" then
    match data with
    | [event_data, task_state] => get_task_kwargs_for_insert operation event_data task_state
    | _ => .error .typeError
  else if jsonStrIn operation unsupported_operations then
    .ok none
  else
    .error .unexpectedOperation

def unsupported_operations_v1 : List String :=
  ["delete", "delete_groups", "merge", "unmerge"]

def unsupported_operations_v2 : List String :=
  ["start_delete_groups", "end_delete_groups", "start_merge", "end_merge",
   "start_unmerge", "end_unmerge", "start_delete_tag", "end_delete_tag",
   "exclude_groups", "tombstone_events", "replace_group"]

/-- `version_handlers` (`protocol.py` lines 64–85), as the map from version
to that version's unsupported-operation set. -/
def version_handlers (version : Int) : Option (List String) :=
  if version = 1 then some unsupported_operations_v1
  else if version = 2 then some unsupported_operations_v2
  else none

/-- `get_task_kwargs_for_message` (`protocol.py` lines 96–118): decode a
message body.  `.ok none` is the Skip outcome. -/
def get_task_kwargs_for_message (value : String) : Except PyError (Option TaskKwargs) := do
  let payload ←
    match jsonLoads value with
    | some j => Except.ok j
    | none => Except.error PyError.valueError
  let version ←
    match pyIndexZero payload with
    | .ok v => Except.ok v
    | .error _ => Except.error PyError.invalidPayload
  let unsupported ←
    match pyIntOfJson version with
    | .ok n =>
        (match version_handlers n with
         | some u => Except.ok u
         | none => Except.error PyError.invalidVersion)
    | .error .valueError => Except.error PyError.invalidVersion
    | .error e => Except.error e
  let args ← pySliceFromOne payload
  match args with
  | operation :: data => handle_message unsupported operation data
  | [] => Except.error PyError.typeError

/-! ### Header decoding -/

/-- Setting `header_data[k] = v`: overwrite an existing key, else append. -/
def hset (d : List (String × Option String)) (k : String) (v : Option String) :
    List (String × Option String) :=
  match d with
  | [] => [(k, v)]
  | kv :: rest => if kv.1 = k then (k, v) :: rest else kv :: hset rest k v

/-- `header_data = {k: v for k, v in headers}`: later occurrences of a key
overwrite earlier ones. -/
def headerDict (headers : List (String × Option String)) : List (String × Option String) :=
  headers.foldl (fun d kv => hset d kv.1 kv.2) []

def hfind (d : List (String × Option String)) (k : String) : Option (Option String) :=
  (d.find? (fun kv => kv.1 = k)).map (fun kv => kv.2)

/-- `header_data[k]`: `KeyError` when the key is absent. -/
def hGetItem (d : List (String × Option String)) (k : String) :
    Except PyError (Option String) :=
  match hfind d k with
  | some v => .ok v
  | none => .error .keyError

/-- `header_data.get(k)`: `None` when the key is absent. -/
def hGetD (d : List (String × Option String)) (k : String) : Option String :=
  match hfind d k with
  | some v => v
  | none => none

/-- `decode_str` (`protocol.py` lines 121–123): asserts the value is bytes. -/
def decode_str : Option String → Except PyError String
  | some s => .ok s
  | none => .error .assertionError

/-- `decode_optional_str` (lines 126–129). -/
def decode_optional_str (value : Option String) : Except PyError (Option String) :=
  match value with
  | none => .ok none
  | some s => (decode_str (some s)).map some

/-- `decode_int` (lines 132–134). -/
def decode_int (value : Option String) : Except PyError Int :=
  match value with
  | none => .error .assertionError
  | some s =>
      match pyIntOfString s with
      | some n => .ok n
      | none => .error .valueError

/-- `decode_optional_int` (lines 137–140). -/
def decode_optional_int (value : Option String) : Except PyError (Option Int) :=
  match value with
  | none => .ok none
  | some s => (decode_int (some s)).map some

/-- `decode_bool` (lines 143–144): `bool(int(decode_str(value)))`. -/
def decode_bool (value : Option String) : Except PyError Bool := do
  let s ← decode_str value
  match pyIntOfString s with
  | some n => .ok (n != 0)
  | none => .error .valueError

/-- `decode_optional_list_str` (lines 147–155): parse JSON and require a
list; a malformed value or a non-list raises `ValueError`. -/
def decode_optional_list_str (value : Option String) : Except PyError (Option Json) :=
  match value with
  | none => .ok none
  | some s =>
      match jsonLoads s with
      | none => .error .valueError
      | some parsed =>
          match parsed with
          | .arr _ => .ok (some parsed)
          | _ => .error .valueError

def jOptStr : Option String → Json
  | none => .null
  | some s => .str s

def jOptInt : Option Int → Json
  | none => .null
  | some n => .int n

def jOptJson : Option Json → Json
  | none => .null
  | some j => j

/-- The extraction block of `get_task_kwargs_for_message_from_headers`
(`protocol.py` lines 165–216), i.e. the body of its `try:`.  Returns the
version, the operation, and the two handler arguments. -/
def headersExtract (headers : List (String × Option String)) :
    Except PyError (Int × Json × List Json) := do
  let hd := headerDict headers
  let version ← decode_int (← hGetItem hd "version")
  let operation ← decode_str (← hGetItem hd "operation")
  if operation = "insert" then
    let hd := if (hfind hd "group_id").isSome then hd else hset hd "group_id" none
    let hd := if (hfind hd "primary_hash").isSome then hd else hset hd "primary_hash" none
    let primary_hash ← decode_optional_str (← hGetItem hd "primary_hash")
    let event_id ← decode_str (← hGetItem hd "event_id")
    let group_id ← decode_optional_int (← hGetItem hd "group_id")
    let project_id ← decode_int (← hGetItem hd "project_id")
    let event_data : Json := .obj
      [("event_id", .str event_id), ("group_id", jOptInt group_id),
       ("project_id", .int project_id), ("primary_hash", jOptStr primary_hash)]
    let skip_consume ← decode_bool (← hGetItem hd "skip_consume")
    let is_new ← decode_bool (← hGetItem hd "is_new")
    let is_regression ← decode_bool (← hGetItem hd "is_regression")
    let is_new_group_environment ← decode_bool (← hGetItem hd "is_new_group_environment")
    let group_states_str ← decode_optional_str (hGetD hd "group_states")
    let group_states : Option Json :=
      match decode_optional_list_str group_states_str with
      | .ok v => v
      | .error _ => none
    let task_state : Json := .obj
      [("skip_consume", .bool skip_consume), ("is_new", .bool is_new),
       ("is_regression", .bool is_regression),
       ("is_new_group_environment", .bool is_new_group_environment),
       ("group_states", jOptJson group_states)]
    pure (version, Json.str operation, [event_data, task_state])
  else
    pure (version, Json.str operation, ([Json.obj [], Json.obj []] : List Json))

/-- `get_task_kwargs_for_message_from_headers` (`protocol.py` lines
158–228).  Any exception inside the extraction block becomes
`InvalidPayload`; the version lookup and the handler run outside it. -/
def get_task_kwargs_for_message_from_headers (headers : List (String × Option String)) :
    Except PyError (Option TaskKwargs) := do
  let extracted ←
    match headersExtract headers with
    | .ok r => Except.ok r
    | .error _ => Except.error PyError.invalidPayload
  let (version, operation, data) := extracted
  let unsupported ←
    match version_handlers version with
    | some u => Except.ok u
    | none => Except.error PyError.invalidVersion
  handle_message unsupported operation data

/-! ## The headers-mode producer: `src/sentry/eventstream/kafka/backend.py` -/

/-- The event attributes `_get_headers_for_insert` reads. -/
structure InsertEvent where
  event_id : String
  project_id : Int
  group_id : Option Int
  deriving DecidableEq, Repr

/-- The arguments of an insert publication, as passed to
`_get_headers_for_insert` / `insert`.  `received_timestamp` is kept as its
`str()` image (it is opaque to the codec and never decoded);
`is_transaction` is the value of `self._is_transaction_event(event)`. -/
structure InsertArgs where
  event : InsertEvent
  is_new : Option Bool
  is_regression : Option Bool
  is_new_group_environment : Option Bool
  primary_hash : Option String
  received_timestamp : String
  skip_consume : Option Bool
  group_states : Option (List Json)
  is_transaction : Bool
  deriving DecidableEq, Repr

/-- `encode_bool` (`backend.py` lines 69–72): `None` becomes `False`, then
`str(int(value))`. -/
def encode_bool (value : Option Bool) : String :=
  match value with
  | none => "0"
  | some b => if b then "1" else "0"

/-- `encode_list` (lines 74–75): `json.dumps(value)`. -/
def encode_list (value : List Json) : String := jsonDumps (.arr value)

/-- `strip_none_values` (lines 79–80). -/
def strip_none_values (value : List (String × Option String)) : List (String × String) :=
  value.filterMap (fun kv => kv.2.map (fun v => (kv.1, v)))

/-- `KafkaEventStream._get_headers_for_insert` (lines 52–103), headers mode
(the `eventstream:kafka-headers` option returns `True`). -/
def get_headers_for_insert (args : InsertArgs) : List (String × String) :=
  strip_none_values
    [("Received-Timestamp", some args.received_timestamp),
     ("event_id", some args.event.event_id),
     ("project_id", some (intToStr args.event.project_id)),
     ("group_id", args.event.group_id.map intToStr),
     ("primary_hash", args.primary_hash),
     ("is_new", some (encode_bool args.is_new)),
     ("is_new_group_environment", some (encode_bool args.is_new_group_environment)),
     ("is_regression", some (encode_bool args.is_regression)),
     ("skip_consume", some (encode_bool args.skip_consume)),
     ("transaction_forwarder", some (encode_bool (some args.is_transaction))),
     ("group_states", args.group_states.map encode_list)]

/-- Modelled from the spec: `SnubaProtocolEventStream.EVENT_PROTOCOL_VERSION`
is defined in `sentry/eventstream/snuba.py`, which is not under `src/`; the
spec (§4.1, scenarios 1 and 4) fixes the current on-wire version at 2. -/
def EVENT_PROTOCOL_VERSION : Int := 2

/-- The headers of a published headers-mode insert: `_send` (lines 164–196)
adds `operation` and `version` to the insert headers and encodes every
value to bytes. -/
def insertWireHeaders (args : InsertArgs) : List (String × Option String) :=
  (get_headers_for_insert args ++
    [("operation", "insert"), ("version", intToStr EVENT_PROTOCOL_VERSION)]).map
    (fun kv => (kv.1, some kv.2))

def jOptBool : Option Bool → Json
  | none => .null
  | some b => .bool b

/-- Modelled from the spec: the body-only encoding of an insert.  Per §4.1
the value is the JSON tuple `[version, operation, event_data, task_state]`,
where `event_data` holds `event_id, project_id, group_id, primary_hash` and
`task_state` holds the booleans, `skip_consume` and the optional
`group_states`; the tuple is built by `SnubaProtocolEventStream.insert`
(`sentry/eventstream/snuba.py`, not under `src/`) and serialized by `_send`
(`backend.py` line 194). -/
def insertBodyPayload (args : InsertArgs) : Json :=
  .arr [.int EVENT_PROTOCOL_VERSION, .str "insert",
    .obj [("event_id", .str args.event.event_id),
          ("project_id", .int args.event.project_id),
          ("group_id", jOptInt args.event.group_id),
          ("primary_hash", jOptStr args.primary_hash)],
    .obj [("is_new", jOptBool args.is_new),
          ("is_regression", jOptBool args.is_regression),
          ("is_new_group_environment", jOptBool args.is_new_group_environment),
          ("skip_consume", jOptBool args.skip_consume),
          ("group_states", match args.group_states with
            | none => Json.null
            | some gs => Json.arr gs)]]

/-- The serialized body of a headers-mode insert. -/
def insertBodyValue (args : InsertArgs) : String := jsonDumps (insertBodyPayload args)

/-! ## Evaluating the decoders on produced messages -/

/-- Python truthiness of a nullable boolean (`None` is falsy). -/
def truthyOB : Option Bool → Bool
  | none => false
  | some b => b

theorem pyTruthy_jOptBool (v : Option Bool) : pyTruthy (jOptBool v) = truthyOB v := by
  rcases v with _ | b
  · rfl
  · cases b <;> rfl

theorem decode_bool_encode_bool (v : Option Bool) :
    decode_bool (some (encode_bool v)) = .ok (truthyOB v) := by
  rcases v with _ | b
  · decide
  · cases b <;> decide

theorem isDigitCh_not_sign (c : Char) (h : isDigitCh c = true) :
    c ≠ '-' ∧ c ≠ '+' ∧ isSpaceCh c = false := by
  have hb : 48 ≤ c.toNat ∧ c.toNat ≤ 57 := by
    simp only [isDigitCh, Bool.and_eq_true, decide_eq_true_eq] at h
    exact ⟨h.1, h.2⟩
  refine ⟨?_, ?_, ?_⟩
  · intro he; subst he; revert hb; decide
  · intro he; subst he; revert hb; decide
  · simp only [isSpaceCh, Bool.or_eq_false_iff, decide_eq_false_iff_not]
    refine ⟨⟨⟨?_, ?_⟩, ?_⟩, ?_⟩ <;> intro he <;> subst he <;> revert hb <;> decide

theorem trimWs_no_space (cs : List Char) (h : ∀ c ∈ cs, isSpaceCh c = false) :
    trimWs cs = cs := by
  have h1 : cs.dropWhile isSpaceCh = cs := by
    cases cs with
    | nil => rfl
    | cons a l =>
        rw [List.dropWhile_cons, h a (by simp)]
        simp
  unfold trimWs
  rw [h1]
  have h2 : cs.reverse.dropWhile isSpaceCh = cs.reverse := by
    cases hr : cs.reverse with
    | nil => rfl
    | cons a l =>
        have ha : a ∈ cs := by
          have hmem : a ∈ cs.reverse := by rw [hr]; exact List.mem_cons_self _ _
          simpa using hmem
        rw [List.dropWhile_cons, h a ha]
        simp
  rw [h2, List.reverse_reverse]

theorem pyIntOfString_intToStr (i : Int) : pyIntOfString (intToStr i) = some i := by
  have hdata : (intToStr i).data = intChars i := rfl
  have hdig := natChars_digits i.natAbs
  have hnosp : ∀ c ∈ natChars i.natAbs, isSpaceCh c = false := fun c hc =>
    (isDigitCh_not_sign c (hdig c hc)).2.2
  have hall : (natChars i.natAbs).all isDigitCh = true := by
    rw [List.all_eq_true]
    exact hdig
  have hne : (natChars i.natAbs).isEmpty = false := by
    rw [List.isEmpty_eq_false_iff_exists_mem]
    obtain ⟨c, cs', heq, _⟩ := natChars_shape i.natAbs
    exact ⟨c, by rw [heq]; exact List.mem_cons_self _ _⟩
  unfold pyIntOfString
  rw [hdata, intChars]
  by_cases h : i < 0
  · rw [if_pos h]
    have htrim : trimWs ('-' :: natChars i.natAbs) = '-' :: natChars i.natAbs := by
      apply trimWs_no_space
      intro c hc
      rcases List.mem_cons.mp hc with rfl | hc
      · decide
      · exact hnosp c hc
    rw [htrim]
    simp only [if_pos rfl, hne, hall, Bool.not_false, Bool.and_self, if_true]
    rw [natOfChars_natChars]
    have hv : ((i.natAbs : Int)) = -i := by omega
    rw [hv]
    simp
  · rw [if_neg h]
    have htrim : trimWs (natChars i.natAbs) = natChars i.natAbs := trimWs_no_space _ hnosp
    rw [htrim]
    obtain ⟨c, cs', heq, hd⟩ := natChars_shape i.natAbs
    obtain ⟨hm, hp, _⟩ := isDigitCh_not_sign c hd
    rw [heq]
    simp only [if_neg hm, if_neg hp]
    rw [← heq, hall]
    simp only [if_true]
    rw [natOfChars_natChars]
    have hv : ((i.natAbs : Int)) = i := by omega
    rw [hv]

theorem decode_int_intToStr (i : Int) :
    decode_int (some (intToStr i)) = .ok i := by
  simp [decode_int, pyIntOfString_intToStr]

theorem decode_optional_int_intToStr (i : Int) :
    decode_optional_int (some (intToStr i)) = .ok (some i) := by
  simp [decode_optional_int, decode_int, pyIntOfString_intToStr, Except.map]

theorem decode_optional_list_str_encode_list (gs : List Json) :
    decode_optional_list_str (some (encode_list gs)) = .ok (some (.arr gs)) := by
  simp [decode_optional_list_str, encode_list, jsonLoads_jsonDumps]

theorem except_bind_ok {a b : Type} (x : a) (f : a → Except PyError b) :
    (Except.ok x : Except PyError a) >>= f = f x := rfl

theorem except_bind_error {a b : Type} (e : PyError) (f : a → Except PyError b) :
    (Except.error e : Except PyError a) >>= f = Except.error e := rfl

theorem except_pure {a : Type} (x : a) :
    (pure x : Except PyError a) = Except.ok x := rfl

theorem except_map_ok {a b : Type} (g : a → b) (x : a) :
    Except.map g (Except.ok x : Except PyError a) = Except.ok (g x) := rfl

theorem hfind_hset_self (d : List (String × Option String)) (k : String) (v : Option String) :
    hfind (hset d k v) k = some v := by
  induction d with
  | nil => simp [hset, hfind, List.find?]
  | cons kv rest ih =>
      by_cases h : kv.1 = k
      · simp [hset, h, hfind, List.find?]
      · simp only [hset, h, if_false, ite_false]
        simp only [hfind, List.find?] at ih ⊢
        simp [h, ih]

theorem hfind_hset_other (d : List (String × Option String)) (k k' : String)
    (v : Option String) (h : k' ≠ k) :
    hfind (hset d k v) k' = hfind d k' := by
  induction d with
  | nil => simp [hset, hfind, List.find?, h, Ne.symm h]
  | cons kv rest ih =>
      by_cases hk : kv.1 = k
      · subst hk
        simp [hset, hfind, List.find?, Ne.symm h]
      · simp only [hset, hk, if_false, ite_false]
        simp only [hfind, List.find?] at ih ⊢
        by_cases hk' : kv.1 = k'
        · simp [hk']
        · simp [hk', ih]

/-- `insertWireHeaders` with the `group_states` header value generalized to
an arbitrary optional byte string (the produced form uses
`args.group_states.map encode_list`). -/
def insertWireHeadersGS (args : InsertArgs) (gsv : Option String) :
    List (String × Option String) :=
  (strip_none_values
    [("Received-Timestamp", some args.received_timestamp),
     ("event_id", some args.event.event_id),
     ("project_id", some (intToStr args.event.project_id)),
     ("group_id", args.event.group_id.map intToStr),
     ("primary_hash", args.primary_hash),
     ("is_new", some (encode_bool args.is_new)),
     ("is_new_group_environment", some (encode_bool args.is_new_group_environment)),
     ("is_regression", some (encode_bool args.is_regression)),
     ("skip_consume", some (encode_bool args.skip_consume)),
     ("transaction_forwarder", some (encode_bool (some args.is_transaction))),
     ("group_states", gsv)] ++
    [("operation", "insert"), ("version", intToStr EVENT_PROTOCOL_VERSION)]).map
    (fun kv => (kv.1, some kv.2))

theorem insertWireHeaders_eq_GS (args : InsertArgs) :
    insertWireHeaders args = insertWireHeadersGS args (args.group_states.map encode_list) := rfl

/-- What the headers decoder recovers from the raw `group_states` header
value: the parsed list, or `None` after a logged failure. -/
def gsHeaderDecode (gsv : Option String) : Option Json :=
  match decode_optional_list_str gsv with
  | .ok v => v
  | .error _ => none

/-! Lookups in the header dict of a produced insert, one per key the
decoder reads. -/

theorem wire_hfind_version (args : InsertArgs) (gsv : Option String) :
    hfind (headerDict (insertWireHeadersGS args gsv)) "version"
      = some (some (intToStr EVENT_PROTOCOL_VERSION)) := by
  obtain ⟨⟨eid, pid, gid⟩, inew, ireg, inge, ph, rts, skip, gss, istr⟩ := args
  rcases gid with _ | g <;> rcases ph with _ | p <;> rcases gsv with _ | gs <;> rfl

theorem wire_hfind_operation (args : InsertArgs) (gsv : Option String) :
    hfind (headerDict (insertWireHeadersGS args gsv)) "operation" = some (some "insert") := by
  obtain ⟨⟨eid, pid, gid⟩, inew, ireg, inge, ph, rts, skip, gss, istr⟩ := args
  rcases gid with _ | g <;> rcases ph with _ | p <;> rcases gsv with _ | gs <;> rfl

theorem wire_hfind_event_id (args : InsertArgs) (gsv : Option String) :
    hfind (headerDict (insertWireHeadersGS args gsv)) "event_id"
      = some (some args.event.event_id) := by
  obtain ⟨⟨eid, pid, gid⟩, inew, ireg, inge, ph, rts, skip, gss, istr⟩ := args
  rcases gid with _ | g <;> rcases ph with _ | p <;> rcases gsv with _ | gs <;> rfl

theorem wire_hfind_project_id (args : InsertArgs) (gsv : Option String) :
    hfind (headerDict (insertWireHeadersGS args gsv)) "project_id"
      = some (some (intToStr args.event.project_id)) := by
  obtain ⟨⟨eid, pid, gid⟩, inew, ireg, inge, ph, rts, skip, gss, istr⟩ := args
  rcases gid with _ | g <;> rcases ph with _ | p <;> rcases gsv with _ | gs <;> rfl

theorem wire_hfind_group_id (args : InsertArgs) (gsv : Option String) :
    hfind (headerDict (insertWireHeadersGS args gsv)) "group_id"
      = args.event.group_id.map (fun g => some (intToStr g)) := by
  obtain ⟨⟨eid, pid, gid⟩, inew, ireg, inge, ph, rts, skip, gss, istr⟩ := args
  rcases gid with _ | g <;> rcases ph with _ | p <;> rcases gsv with _ | gs <;> rfl

theorem wire_hfind_primary_hash (args : InsertArgs) (gsv : Option String) :
    hfind (headerDict (insertWireHeadersGS args gsv)) "primary_hash"
      = args.primary_hash.map some := by
  obtain ⟨⟨eid, pid, gid⟩, inew, ireg, inge, ph, rts, skip, gss, istr⟩ := args
  rcases gid with _ | g <;> rcases ph with _ | p <;> rcases gsv with _ | gs <;> rfl

theorem wire_hfind_skip_consume (args : InsertArgs) (gsv : Option String) :
    hfind (headerDict (insertWireHeadersGS args gsv)) "skip_consume"
      = some (some (encode_bool args.skip_consume)) := by
  obtain ⟨⟨eid, pid, gid⟩, inew, ireg, inge, ph, rts, skip, gss, istr⟩ := args
  rcases gid with _ | g <;> rcases ph with _ | p <;> rcases gsv with _ | gs <;> rfl

theorem wire_hfind_is_new (args : InsertArgs) (gsv : Option String) :
    hfind (headerDict (insertWireHeadersGS args gsv)) "is_new"
      = some (some (encode_bool args.is_new)) := by
  obtain ⟨⟨eid, pid, gid⟩, inew, ireg, inge, ph, rts, skip, gss, istr⟩ := args
  rcases gid with _ | g <;> rcases ph with _ | p <;> rcases gsv with _ | gs <;> rfl

theorem wire_hfind_is_regression (args : InsertArgs) (gsv : Option String) :
    hfind (headerDict (insertWireHeadersGS args gsv)) "is_regression"
      = some (some (encode_bool args.is_regression)) := by
  obtain ⟨⟨eid, pid, gid⟩, inew, ireg, inge, ph, rts, skip, gss, istr⟩ := args
  rcases gid with _ | g <;> rcases ph with _ | p <;> rcases gsv with _ | gs <;> rfl

theorem wire_hfind_is_new_group_environment (args : InsertArgs) (gsv : Option String) :
    hfind (headerDict (insertWireHeadersGS args gsv)) "is_new_group_environment"
      = some (some (encode_bool args.is_new_group_environment)) := by
  obtain ⟨⟨eid, pid, gid⟩, inew, ireg, inge, ph, rts, skip, gss, istr⟩ := args
  rcases gid with _ | g <;> rcases ph with _ | p <;> rcases gsv with _ | gs <;> rfl

theorem wire_hfind_group_states (args : InsertArgs) (gsv : Option String) :
    hfind (headerDict (insertWireHeadersGS args gsv)) "group_states" = gsv.map some := by
  obtain ⟨⟨eid, pid, gid⟩, inew, ireg, inge, ph, rts, skip, gss, istr⟩ := args
  rcases gid with _ | g <;> rcases ph with _ | p <;> rcases gsv with _ | gs <;> rfl

set_option maxHeartbeats 1000000 in
/-- Evaluating the headers-extraction block on a produced insert whose
`group_states` header value is `gsv`. -/
theorem headersExtract_insertGS (args : InsertArgs) (gsv : Option String) :
    headersExtract (insertWireHeadersGS args gsv) =
      .ok (2, Json.str "insert",
        [Json.obj
          [("event_id", .str args.event.event_id),
           ("group_id", jOptInt args.event.group_id),
           ("project_id", .int args.event.project_id),
           ("primary_hash", jOptStr args.primary_hash)],
         Json.obj
          [("skip_consume", .bool (truthyOB args.skip_consume)),
           ("is_new", .bool (truthyOB args.is_new)),
           ("is_regression", .bool (truthyOB args.is_regression)),
           ("is_new_group_environment", .bool (truthyOB args.is_new_group_environment)),
           ("group_states", jOptJson (gsHeaderDecode gsv))]]) := by
  rcases hgid : args.event.group_id with _ | g <;>
    rcases hph : args.primary_hash with _ | p <;>
      rcases hgsv : gsv with _ | gs <;>
  simp [headersExtract, hGetItem, hGetD, wire_hfind_version, wire_hfind_operation,
    wire_hfind_event_id, wire_hfind_project_id, wire_hfind_group_id, wire_hfind_primary_hash,
    wire_hfind_skip_consume, wire_hfind_is_new, wire_hfind_is_regression,
    wire_hfind_is_new_group_environment, wire_hfind_group_states,
    hfind_hset_self, hfind_hset_other, hgid, hph,
    except_bind_ok, except_bind_error, except_pure, except_map_ok,
    decode_str, decode_optional_str, decode_int_intToStr, decode_optional_int,
    decode_bool_encode_bool, gsHeaderDecode, decode_optional_list_str,
    jOptInt, jOptStr, jOptJson, EVENT_PROTOCOL_VERSION]

/-- The dispatch kwargs the headers decoder produces for a produced insert
(when not skipped). -/
def headersKwargs (args : InsertArgs) (gsv : Option String) : TaskKwargs :=
  { event_id := .str args.event.event_id
  , project_id := .int args.event.project_id
  , group_id := jOptInt args.event.group_id
  , primary_hash := jOptStr args.primary_hash
  , is_new := .bool (truthyOB args.is_new)
  , is_regression := .bool (truthyOB args.is_regression)
  , is_new_group_environment := .bool (truthyOB args.is_new_group_environment)
  , group_states := some (jOptJson (gsHeaderDecode gsv)) }

set_option maxHeartbeats 1000000 in
/-- The headers decoder on a produced insert whose raw `group_states`
header is `gsv`. -/
theorem headers_decode_insertGS (args : InsertArgs) (gsv : Option String) :
    get_task_kwargs_for_message_from_headers (insertWireHeadersGS args gsv) =
      .ok (if truthyOB args.skip_consume then none else some (headersKwargs args gsv)) := by
  obtain ⟨⟨eid, pid, gid⟩, inew, ireg, inge, ph, rts, skip, gss, istr⟩ := args
  rcases skip with _ | (_ | _) <;>
    simp [get_task_kwargs_for_message_from_headers, headersExtract_insertGS, version_handlers,
      handle_message, get_task_kwargs_for_insert, pyTruthy, pyGetItem, pyGetDefault,
      except_bind_ok, except_bind_error, except_pure, headersKwargs, truthyOB, encode_bool,
      List.find?]

/-- The dispatch kwargs the body decoder produces for the equivalent
body-form insert (when not skipped). -/
def bodyKwargs (args : InsertArgs) : TaskKwargs :=
  { event_id := .str args.event.event_id
  , project_id := .int args.event.project_id
  , group_id := jOptInt args.event.group_id
  , primary_hash := jOptStr args.primary_hash
  , is_new := jOptBool args.is_new
  , is_regression := jOptBool args.is_regression
  , is_new_group_environment := jOptBool args.is_new_group_environment
  , group_states := some (match args.group_states with
      | none => Json.null
      | some gs => Json.arr gs) }

set_option maxHeartbeats 1000000 in
/-- The body decoder on the body form of an insert. -/
theorem body_decode_insert (args : InsertArgs) :
    get_task_kwargs_for_message (insertBodyValue args) =
      .ok (if truthyOB args.skip_consume then none else some (bodyKwargs args)) := by
  obtain ⟨⟨eid, pid, gid⟩, inew, ireg, inge, ph, rts, skip, gss, istr⟩ := args
  rcases skip with _ | (_ | _) <;>
    simp [get_task_kwargs_for_message, insertBodyValue, jsonLoads_jsonDumps, insertBodyPayload,
      pyIndexZero, pySliceFromOne, pyIntOfJson, version_handlers, handle_message,
      get_task_kwargs_for_insert, pyTruthy, pyGetItem, pyGetDefault, jOptBool,
      except_bind_ok, except_bind_error, except_pure, bodyKwargs, EVENT_PROTOCOL_VERSION,
      truthyOB, List.find?]

theorem decode_optional_list_str_none : decode_optional_list_str none = .ok none := rfl

theorem gsHeaderDecode_none : gsHeaderDecode none = none := rfl

/-! ## Claims about the wire codec -/

set_option maxRecDepth 10000

/-- A string that is not valid JSON, or is valid JSON but not a JSON
list. -/
def isJsonList (s : String) : Bool :=
  match jsonLoads s with
  | some (.arr _) => true
  | _ => false

/-- A headers-mode insert with a null `is_regression`: the witness input
on which claim C1, as stated, fails. -/
def c1CounterArgs : InsertArgs :=
  { event := { event_id := "e", project_id := 1, group_id := none }
  , is_new := some false, is_regression := none, is_new_group_environment := some false
  , primary_hash := none, received_timestamp := "1", skip_consume := some false
  , group_states := none, is_transaction := false }

/-- Claim C1, as stated, is false on the code: for an insert whose
`is_regression` is null, the headers decoder returns `is_regression =
False` (because `encode_bool` sends null booleans as `"0"`), while the
body decoder returns `is_regression = None`, so the two dispatch kwargs
maps differ. -/
theorem C1_counterexample :
    get_task_kwargs_for_message_from_headers (insertWireHeaders c1CounterArgs) ≠
      get_task_kwargs_for_message (insertBodyValue c1CounterArgs) := by decide

/-- Claim C1 (amended): for every insert whose headers form is well-formed
and whose `is_new`, `is_regression` and `is_new_group_environment` are
non-null, decoding the headers produced by `_get_headers_for_insert` and
decoding the equivalent body form yield equal dispatch kwargs, for all
values of the remaining fields including null `group_id`, `primary_hash`
and `group_states`.  (When one of the three booleans is null the two
decoders disagree: headers-mode yields `False` where body-mode yields
`None`; see `C1_counterexample`.) -/
theorem C1_headers_body_roundtrip (args : InsertArgs)
    (h1 : args.is_new.isSome) (h2 : args.is_regression.isSome)
    (h3 : args.is_new_group_environment.isSome) :
    get_task_kwargs_for_message_from_headers (insertWireHeaders args) =
      get_task_kwargs_for_message (insertBodyValue args) := by
  rw [insertWireHeaders_eq_GS, headers_decode_insertGS, body_decode_insert]
  obtain ⟨b1, hb1⟩ := Option.isSome_iff_exists.mp h1
  obtain ⟨b2, hb2⟩ := Option.isSome_iff_exists.mp h2
  obtain ⟨b3, hb3⟩ := Option.isSome_iff_exists.mp h3
  rcases hgs : args.group_states with _ | gs <;>
    simp [headersKwargs, bodyKwargs, hb1, hb2, hb3, truthyOB, jOptBool, gsHeaderDecode,
      decode_optional_list_str_encode_list, jOptJson, decode_optional_list_str_none, hgs]

def c1WitnessArgs : InsertArgs :=
  { event := { event_id := "fe0ee9a2", project_id := 1, group_id := some 43 }
  , is_new := some false, is_regression := some true, is_new_group_environment := some false
  , primary_hash := some "311ee66a", received_timestamp := "1.5", skip_consume := some false
  , group_states := some [Json.obj [("id", .int 43), ("is_new", .bool false)]]
  , is_transaction := false }

theorem C1_headers_body_roundtrip_witness :
    (c1WitnessArgs.is_new.isSome ∧ c1WitnessArgs.is_regression.isSome ∧
      c1WitnessArgs.is_new_group_environment.isSome) ∧
    get_task_kwargs_for_message_from_headers (insertWireHeaders c1WitnessArgs) =
      get_task_kwargs_for_message (insertBodyValue c1WitnessArgs) :=
  ⟨⟨by decide, by decide, by decide⟩,
    C1_headers_body_roundtrip c1WitnessArgs (by decide) (by decide) (by decide)⟩

/-- A headers-mode insert with a null `is_new`: the witness input on which
claim C2, as stated, fails. -/
def c2CounterArgs : InsertArgs :=
  { event := { event_id := "e", project_id := 1, group_id := none }
  , is_new := none, is_regression := some false, is_new_group_environment := some false
  , primary_hash := none, received_timestamp := "1", skip_consume := some false
  , group_states := none, is_transaction := false }

/-- Claim C2, as stated, is false on the code: for an insert whose `is_new`
is null, `_get_headers_for_insert` does not omit the `is_new` header — it
sends it as `"0"` (`encode_bool(None) = str(int(False))`) — and the headers
decoder reconstructs `False`, not null. -/
theorem C2_counterexample :
    ("is_new", "0") ∈ get_headers_for_insert c2CounterArgs ∧
    (get_task_kwargs_for_message_from_headers
        (insertWireHeaders c2CounterArgs)).toOption.join.map (fun tk => tk.is_new)
      = some (Json.bool false) := by decide

/-- Claim C2 (amended): serializing an insert in headers mode omits exactly
the null-valued headers among `group_id`, `primary_hash` and
`group_states`, and decoding such a message reconstructs those nulls; the
boolean fields `is_new`, `is_regression`, `is_new_group_environment` are
always sent (a null source value is encoded as `"0"`) and decode to
`False` rather than null (see `C2_counterexample`). -/
theorem C2_null_stripping (args : InsertArgs) (hsk : truthyOB args.skip_consume = false) :
    ((get_headers_for_insert args).lookup "group_id" = args.event.group_id.map intToStr) ∧
    ((get_headers_for_insert args).lookup "primary_hash" = args.primary_hash) ∧
    ((get_headers_for_insert args).lookup "group_states" = args.group_states.map encode_list) ∧
    ((get_headers_for_insert args).lookup "is_new" = some (encode_bool args.is_new)) ∧
    ((get_headers_for_insert args).lookup "is_regression"
        = some (encode_bool args.is_regression)) ∧
    ((get_headers_for_insert args).lookup "is_new_group_environment"
        = some (encode_bool args.is_new_group_environment)) ∧
    get_task_kwargs_for_message_from_headers (insertWireHeaders args) =
      .ok (some
        { event_id := .str args.event.event_id
        , project_id := .int args.event.project_id
        , group_id := jOptInt args.event.group_id
        , primary_hash := jOptStr args.primary_hash
        , is_new := .bool (truthyOB args.is_new)
        , is_regression := .bool (truthyOB args.is_regression)
        , is_new_group_environment := .bool (truthyOB args.is_new_group_environment)
        , group_states := some (match args.group_states with
            | none => Json.null
            | some gs => Json.arr gs) }) := by
  obtain ⟨⟨eid, pid, gid⟩, inew, ireg, inge, ph, rts, skip, gss, istr⟩ := args
  rcases gid with _ | g <;> rcases ph with _ | p <;> rcases gss with _ | gs <;>
    refine ⟨rfl, rfl, rfl, rfl, rfl, rfl, ?_⟩ <;>
    · rw [insertWireHeaders_eq_GS, headers_decode_insertGS]
      simp only [hsk, if_false, Bool.false_eq_true, ite_false]
      simp [headersKwargs, gsHeaderDecode, decode_optional_list_str_encode_list,
        decode_optional_list_str_none, jOptJson, Option.map]

def c2WitnessArgs : InsertArgs :=
  { event := { event_id := "e2", project_id := 7, group_id := none }
  , is_new := some true, is_regression := none, is_new_group_environment := some false
  , primary_hash := none, received_timestamp := "2", skip_consume := none
  , group_states := none, is_transaction := false }

theorem C2_null_stripping_witness :
    truthyOB c2WitnessArgs.skip_consume = false ∧
    ((get_headers_for_insert c2WitnessArgs).lookup "group_id"
        = c2WitnessArgs.event.group_id.map intToStr) :=
  ⟨by decide, (C2_null_stripping c2WitnessArgs (by decide)).1⟩

/-- Claim C8: in the headers decoder, for every insert whose `group_states`
header holds a string that is not valid JSON or not a JSON list, decoding
behaves exactly as if the header were absent — `group_states` is replaced
with null in the dispatch kwargs (the malformed value is only logged) and
the rest of the record still decodes without error. -/
theorem C8_malformed_group_states (args : InsertArgs) (s : String)
    (hbad : isJsonList s = false) :
    get_task_kwargs_for_message_from_headers (insertWireHeadersGS args (some s)) =
      get_task_kwargs_for_message_from_headers (insertWireHeadersGS args none) ∧
    get_task_kwargs_for_message_from_headers (insertWireHeadersGS args (some s)) =
      .ok (if truthyOB args.skip_consume then none else some (headersKwargs args none)) ∧
    (headersKwargs args none).group_states = some Json.null := by
  have hgs : gsHeaderDecode (some s) = none := by
    unfold gsHeaderDecode decode_optional_list_str
    unfold isJsonList at hbad
    cases hj : jsonLoads s with
    | none => simp [hj]
    | some j =>
        cases j <;> simp_all
  have hkw : headersKwargs args (some s) = headersKwargs args none := by
    simp [headersKwargs, hgs, gsHeaderDecode_none]
  refine ⟨?_, ?_, ?_⟩
  · rw [headers_decode_insertGS, headers_decode_insertGS, hkw]
  · rw [headers_decode_insertGS, hkw]
  · simp [headersKwargs, gsHeaderDecode_none, jOptJson]

def c8WitnessArgs : InsertArgs :=
  { event := { event_id := "e8", project_id := 3, group_id := some 9 }
  , is_new := some true, is_regression := some false, is_new_group_environment := some false
  , primary_hash := some "h8", received_timestamp := "3", skip_consume := some false
  , group_states := none, is_transaction := false }

theorem C8_malformed_group_states_witness :
    isJsonList "not json" = false ∧
    get_task_kwargs_for_message_from_headers (insertWireHeadersGS c8WitnessArgs (some "not json")) =
      get_task_kwargs_for_message_from_headers (insertWireHeadersGS c8WitnessArgs none) :=
  ⟨by decide, (C8_malformed_group_states c8WitnessArgs "not json" (by decide)).1⟩

/-- Claim C9: for every insert message — body form or headers form — whose
`task_state` has a truthy `skip_consume`, the decoder returns Skip
(`.ok none`): no task kwargs are produced.  Stated for the handler on an
arbitrary `task_state` mapping, and for both wire forms of a produced
insert with `skip_consume = true`. -/
theorem C9_skip_consume :
    (∀ (operation event_data : Json) (fs : List (String × Json)) (v : Json),
        pyGetDefault (Json.obj fs) "skip_consume" (.bool false) = .ok v →
        pyTruthy v = true →
        get_task_kwargs_for_insert operation event_data (Json.obj fs) = .ok none) ∧
    (∀ args : InsertArgs, truthyOB args.skip_consume = true →
        get_task_kwargs_for_message_from_headers (insertWireHeaders args) = .ok none ∧
        get_task_kwargs_for_message (insertBodyValue args) = .ok none) := by
  constructor
  · intro operation event_data fs v hget htr
    have hfs : fs ≠ [] := by
      intro h
      subst h
      simp [pyGetDefault, List.find?] at hget
      rw [← hget] at htr
      simp [pyTruthy] at htr
    simp only [get_task_kwargs_for_insert]
    have htruthy : pyTruthy (Json.obj fs) = true := by
      cases fs with
      | nil => exact absurd rfl hfs
      | cons kv rest => rfl
    rw [htruthy]
    simp [hget, htr, except_bind_ok, except_pure]
  · intro args hsk
    constructor
    · rw [insertWireHeaders_eq_GS, headers_decode_insertGS, hsk]
      rfl
    · rw [body_decode_insert, hsk]
      rfl

def c9WitnessArgs : InsertArgs :=
  { event := { event_id := "e9", project_id := 5, group_id := some 2 }
  , is_new := some false, is_regression := some false, is_new_group_environment := some false
  , primary_hash := none, received_timestamp := "4", skip_consume := some true
  , group_states := none, is_transaction := false }

theorem C9_skip_consume_witness :
    pyTruthy (Json.bool true) = true ∧
    get_task_kwargs_for_insert (Json.str "insert") (Json.obj [])
      (Json.obj [("skip_consume", Json.bool true)]) = .ok none ∧
    truthyOB c9WitnessArgs.skip_consume = true ∧
    get_task_kwargs_for_message (insertBodyValue c9WitnessArgs) = .ok none :=
  ⟨by decide,
   C9_skip_consume.1 (Json.str "insert") (Json.obj [])
     [("skip_consume", Json.bool true)] (Json.bool true) (by decide) (by decide),
   by decide,
   (C9_skip_consume.2 c9WitnessArgs (by decide)).2⟩

/-- Claim C5: for every decoded message, a non-insert operation in the
version's unsupported set yields Skip (`.ok none`, no error), any other
non-insert operation fails with `UnexpectedOperation`, and the unsupported
sets are exactly the four version-1 operations and the eleven version-2
operations. -/
theorem C5_version_gating :
    version_handlers 1 = some unsupported_operations_v1 ∧
    version_handlers 2 = some unsupported_operations_v2 ∧
    unsupported_operations_v1 = ["delete", "delete_groups", "merge", "unmerge"] ∧
    unsupported_operations_v2 =
      ["start_delete_groups", "end_delete_groups", "start_merge", "end_merge",
       "start_unmerge", "end_unmerge", "start_delete_tag", "end_delete_tag",
       "exclude_groups", "tombstone_events", "replace_group"] ∧
    ∀ (version : Int) (us : List String), version_handlers version = some us →
      ∀ (op : String) (data : List Json), op ≠ "insert" →
        (op ∈ us → handle_message us (.str op) data = .ok none) ∧
        (op ∉ us → handle_message us (.str op) data = .error .unexpectedOperation) := by
  refine ⟨rfl, rfl, rfl, rfl, ?_⟩
  intro version us _ op data hop
  have hne : (Json.str op = Json.str "insert") = False := by
    simp [hop]
  constructor
  · intro hmem
    simp [handle_message, hne, jsonStrIn, hmem]
  · intro hmem
    simp [handle_message, hne, jsonStrIn, hmem]

theorem C5_version_gating_witness :
    version_handlers 1 = some unsupported_operations_v1 ∧
    ("merge" ≠ "insert") ∧ ("merge" ∈ unsupported_operations_v1) ∧
    handle_message unsupported_operations_v1 (.str "merge") [] = .ok none ∧
    ("delete_tag" ∉ unsupported_operations_v1) ∧
    handle_message unsupported_operations_v1 (.str "delete_tag") []
      = .error .unexpectedOperation :=
  ⟨rfl, by decide, by decide,
   (C5_version_gating.2.2.2.2 1 unsupported_operations_v1 rfl "merge" [] (by decide)).1
     (by decide),
   by decide,
   (C5_version_gating.2.2.2.2 1 unsupported_operations_v1 rfl "delete_tag" [] (by decide)).2
     (by decide)⟩

/-! ## The post-process pipeline: `src/sentry/tasks/post_process.py`

Each stage is embedded as a pure function `Env → Job → Job × List Effect`:
`Env` packages the answers the outside world (caches, database, locks,
feature flags, the rule processor) gives back to the stage, and the
returned `Effect` list records the externally visible actions of the
stage in program order.  Cache maintenance (reads, and `cache.set` of
looked-up values) is part of how an `Env` answer is obtained and is not an
`Effect`. -/

inductive GroupCategory where
  | error
  | performance
  deriving DecidableEq, Repr

inductive GroupInboxReason where
  | new
  | regression
  | reprocessed
  | unignored
  deriving DecidableEq, Repr

/-- The snooze thresholds passed to `add_group_to_inbox` as
`snooze_details` (`post_process.py` lines 544–550). -/
structure SnoozeDetails where
  until_ts : Option Int
  count : Option Int
  window : Option Int
  user_count : Option Int
  user_window : Option Int
  deriving DecidableEq, Repr

/-- A `GroupSnooze` row as the stage sees it, with the outcome of
`snooze.is_valid(group, test_rates=True, use_pending_data=True)` (an
external model method) recorded in `valid`. -/
structure SnoozeRec where
  details : SnoozeDetails
  valid : Bool
  deriving DecidableEq, Repr

/-- The externally visible actions a stage can perform. -/
inductive Effect where
  | metricsIncrUnique
  | inboxAdd (reason : GroupInboxReason) (details : Option SnoozeDetails)
  | groupHistoryUnignored
  | activitySetUnresolved
  | snoozeDelete
  | groupStatusUnresolved
  | signalIssueUnignored (transition_type : String)
  | getAutoassignOwners
  | assignToFirstOwner (owner : Int)
  | groupOwnerReconcile (owners : List Int) (owner_source : List String)
  | rulesProcessorRun (is_new is_regression is_new_group_environment : Option Bool)
      (has_reappeared : Bool)
  | enqueueProcessCommitContext
  | enqueueProcessSuspectCommits
  | commitDebounceMetric
  | enqueueServiceHook (id : Int)
  | resourceChangeErrorCreated
  | resourceChangeGroupCreated
  | pluginPostProcess (slug : String)
  | similarityRecord
  | attachmentsBindGroup (project_id : Int) (event_id : String) (group_id : Option Int)
  | signalEventProcessed
  deriving DecidableEq, Repr

/-- One element of `group_states` (nullable booleans, as decoded). -/
structure GroupStateRec where
  id : Option Int
  is_new : Option Bool
  is_regression : Option Bool
  is_new_group_environment : Option Bool
  deriving DecidableEq, Repr

/-- The event attributes the stages read. -/
structure EventRec where
  event_id : String
  project_id : Int
  group_id : Option Int
  group_platform : Option String
  issue_category : GroupCategory
  event_type_error : Bool
  deriving DecidableEq, Repr

/-- `PostProcessJob` (`post_process.py` lines 34–39): a `TypedDict` with
`total=False` — `has_alert` may be absent (`none`) until `process_rules`
sets it. -/
structure Job where
  event : EventRec
  group_state : GroupStateRec
  is_reprocessed : Bool
  has_reappeared : Bool
  has_alert : Option Bool
  deriving DecidableEq, Repr

/-- The result of `ProjectOwnership.get_autoassign_owners` (an external
call; owners are abstracted to their ids). -/
structure AutoassignResult where
  auto_assignment : Bool
  owners : List Int
  assigned_by_codeowners : Bool
  owner_source : List String
  deriving DecidableEq, Repr

/-- The answers the outside world gives back to the stages.  Cached
existence checks are recorded already resolved (a cache miss falls back to
the database and re-populates the cache; only the resolved answer matters
to the stage's behavior). -/
structure Env where
  snooze : Option SnoozeRec
  owners_exist : Bool
  assignees_exist : Bool
  killswitch_autoassign : Bool
  autoassign : AutoassignResult
  groupowner_lock_acquired : Bool
  rules_has_alert : Bool
  commit_lock_acquired : Bool
  org_has_commit : Bool
  group_commit_debounced : Bool
  feature_commit_context : Bool
  feature_servicehooks : Bool
  servicehooks : List (Int × List String)
  should_send_error_created_hooks : Bool
  plugins : List String
  deriving DecidableEq, Repr

/-- `should_write_event_stats` (lines 80–85). -/
def should_write_event_stats (event : EventRec) : Bool :=
  event.issue_category = GroupCategory.error && event.group_platform.isSome

/-- `_capture_group_stats` (lines 106–113). -/
def capture_group_stats (_env : Env) (job : Job) : Job × List Effect :=
  if !(truthyOB job.group_state.is_new) || !(should_write_event_stats job.event) then (job, [])
  else (job, [.metricsIncrUnique])

/-- `process_snoozes` (lines 508–576).  The snooze is obtained from the
cache or, on a miss, from `GroupSnooze.objects` (re-populating the cache);
the resolved row is `env.snooze`. -/
def process_snoozes (env : Env) (job : Job) : Job × List Effect :=
  if job.is_reprocessed || !job.has_reappeared then (job, [])
  else
    match env.snooze with
    | none => ({ job with has_reappeared := false }, [])
    | some snooze =>
        if !snooze.valid then
          ({ job with has_reappeared := true },
           [.inboxAdd .unignored (some snooze.details),
            .groupHistoryUnignored,
            .activitySetUnresolved,
            .snoozeDelete,
            .groupStatusUnresolved,
            .signalIssueUnignored "automatic"])
        else ({ job with has_reappeared := false }, [])

/-- `process_inbox_adds` (lines 480–505). -/
def process_inbox_adds (_env : Env) (job : Job) : Job × List Effect :=
  if job.is_reprocessed && truthyOB job.group_state.is_new then
    (job, [.inboxAdd .reprocessed none])
  else if !job.is_reprocessed && !job.has_reappeared then
    if truthyOB job.group_state.is_new then (job, [.inboxAdd .new none])
    else if truthyOB job.group_state.is_regression then (job, [.inboxAdd .regression none])
    else (job, [])
  else (job, [])

/-- `handle_group_owners` (lines 215–284): under the non-blocking
`groupowner-bulk` lock, reconcile the `GroupOwner` rows; failure to
acquire the lock is a silent no-op. -/
def handle_group_owners (env : Env) (owners : List Int) (owner_source : List String) :
    List Effect :=
  if env.groupowner_lock_acquired then [.groupOwnerReconcile owners owner_source]
  else []

/-- `handle_owner_assignment` (lines 116–212). -/
def handle_owner_assignment (env : Env) (job : Job) : Job × List Effect :=
  if job.is_reprocessed then (job, [])
  else
    let owners_exists := env.owners_exist
    let assignees_exists := env.assignees_exist
    if owners_exists && assignees_exists then (job, [])
    else
      let computed :=
        if env.killswitch_autoassign then
          ([], false, ([] : List Int), ([] : List String))
        else
          ([Effect.getAutoassignOwners], env.autoassign.auto_assignment,
            env.autoassign.owners, env.autoassign.owner_source)
      let computeEffs := computed.1
      let auto_assignment := computed.2.1
      let owners := computed.2.2.1
      let owner_source := computed.2.2.2
      let assignEffs :=
        match owners with
        | o :: _ => if auto_assignment && !assignees_exists then [Effect.assignToFirstOwner o]
                    else []
        | [] => []
      let reconcileEffs :=
        if !owners.isEmpty && !owners_exists then handle_group_owners env owners owner_source
        else []
      (job, computeEffs ++ assignEffs ++ reconcileEffs)

/-- `process_rules` (lines 579–602): run the rule processor (recording the
arguments it is constructed with) and set `job["has_alert"]`. -/
def process_rules (env : Env) (job : Job) : Job × List Effect :=
  if job.is_reprocessed then (job, [])
  else
    ({ job with has_alert := some env.rules_has_alert },
     [.rulesProcessorRun job.group_state.is_new job.group_state.is_regression
        job.group_state.is_new_group_environment job.has_reappeared])

/-- `process_commits` (lines 605–664). -/
def process_commits (env : Env) (job : Job) : Job × List Effect :=
  if job.is_reprocessed then (job, [])
  else if !env.commit_lock_acquired then (job, [])
  else if !env.org_has_commit then (job, [])
  else if env.group_commit_debounced then (job, [.commitDebounceMetric])
  else if env.feature_commit_context then (job, [.enqueueProcessCommitContext])
  else (job, [.enqueueProcessSuspectCommits])

/-- `process_service_hooks` (lines 667–683).  Reading `job["has_alert"]`
when `process_rules` has not set it raises `KeyError`; the exception is
caught by the pipeline guard, so the stage contributes nothing. -/
def process_service_hooks (env : Env) (job : Job) : Job × List Effect :=
  if job.is_reprocessed then (job, [])
  else
    match job.has_alert with
    | none => (job, [])
    | some has_alert =>
        if env.feature_servicehooks then
          let allowed_events := "event.created" :: (if has_alert then ["event.alert"] else [])
          (job, (env.servicehooks.filter
              (fun h => h.2.any (fun e => allowed_events.contains e))).map
            (fun h => Effect.enqueueServiceHook h.1))
        else (job, [])

/-- `process_resource_change_bounds` (lines 686–701). -/
def process_resource_change_bounds (env : Env) (job : Job) : Job × List Effect :=
  if job.is_reprocessed then (job, [])
  else
    (job,
      (if job.event.event_type_error && env.should_send_error_created_hooks then
        [Effect.resourceChangeErrorCreated]
      else []) ++
      (if truthyOB job.group_state.is_new then [Effect.resourceChangeGroupCreated] else []))

/-- `process_plugins` (lines 704–719). -/
def process_plugins (env : Env) (job : Job) : Job × List Effect :=
  if job.is_reprocessed then (job, [])
  else (job, env.plugins.map Effect.pluginPostProcess)

/-- `process_similarity` (lines 722–731). -/
def process_similarity (_env : Env) (job : Job) : Job × List Effect :=
  if job.is_reprocessed then (job, [])
  else (job, [.similarityRecord])

/-- `update_existing_attachments` (lines 287–305): no `is_reprocessed`
guard; rebinds the event's attachments to `event.group_id`. -/
def update_existing_attachments (_env : Env) (job : Job) : Job × List Effect :=
  (job, [.attachmentsBindGroup job.event.project_id job.event.event_id job.event.group_id])

/-- `fire_error_processed` (lines 734–742): returns immediately for
reprocessed jobs, otherwise emits the `event_processed` signal. -/
def fire_error_processed (_env : Env) (job : Job) : Job × List Effect :=
  if job.is_reprocessed then (job, [])
  else (job, [.signalEventProcessed])

inductive StageId where
  | capture_group_stats
  | process_snoozes
  | process_inbox_adds
  | handle_owner_assignment
  | process_rules
  | process_commits
  | process_service_hooks
  | process_resource_change_bounds
  | process_plugins
  | process_similarity
  | update_existing_attachments
  | fire_error_processed
  deriving DecidableEq, Repr

def runStage (env : Env) : StageId → Job → Job × List Effect
  | .capture_group_stats => capture_group_stats env
  | .process_snoozes => process_snoozes env
  | .process_inbox_adds => process_inbox_adds env
  | .handle_owner_assignment => handle_owner_assignment env
  | .process_rules => process_rules env
  | .process_commits => process_commits env
  | .process_service_hooks => process_service_hooks env
  | .process_resource_change_bounds => process_resource_change_bounds env
  | .process_plugins => process_plugins env
  | .process_similarity => process_similarity env
  | .update_existing_attachments => update_existing_attachments env
  | .fire_error_processed => fire_error_processed env

/-- `GROUP_CATEGORY_POST_PROCESS_PIPELINE` (lines 764–779). -/
def GROUP_CATEGORY_POST_PROCESS_PIPELINE : GroupCategory → Option (List StageId)
  | .error => some
      [.capture_group_stats, .process_snoozes, .process_inbox_adds, .handle_owner_assignment,
       .process_rules, .process_commits, .process_service_hooks,
       .process_resource_change_bounds, .process_plugins, .process_similarity,
       .update_existing_attachments, .fire_error_processed]
  | _ => none

/-- The pipeline loop of `run_post_process_job` (lines 432–439): each step
runs under `try/except`; a raising step is logged and the loop continues
(the raising step's partial work is modelled as no state change and no
recorded effects).  The last component is the list of invoked steps, in
order. -/
def runPipelineSteps (stageExec : StageId → Job → Except Unit (Job × List Effect)) :
    List StageId → Job → Job × List Effect × List StageId
  | [], job => (job, [], [])
  | s :: rest, job =>
      let step :=
        match stageExec s job with
        | .ok r => r
        | .error _ => (job, [])
      let next := runPipelineSteps stageExec rest step.1
      (next.1, step.2 ++ next.2.1, s :: next.2.2)

/-- `run_post_process_job` (lines 423–439). -/
def run_post_process_job (stageExec : StageId → Job → Except Unit (Job × List Effect))
    (job : Job) : Job × List Effect × List StageId :=
  match GROUP_CATEGORY_POST_PROCESS_PIPELINE job.event.issue_category with
  | none => (job, [], [])
  | some pipeline => runPipelineSteps stageExec pipeline job

/-- The non-faulting stage executor: every stage runs its embedded body. -/
def stageExecOf (env : Env) : StageId → Job → Except Unit (Job × List Effect) :=
  fun s job => .ok (runStage env s job)

/-- A fault-injecting executor: the stages selected by `raises` throw. -/
def stageExecFaulty (env : Env) (raises : StageId → Bool) :
    StageId → Job → Except Unit (Job × List Effect) :=
  fun s job => if raises s then .error () else .ok (runStage env s job)

def runErrorPipeline (env : Env) (job : Job) : Job × List Effect × List StageId :=
  run_post_process_job (stageExecOf env) job

/-- The job constructed by `post_process_group` for one group state
(lines 413–419): `has_reappeared` is initialized to
`not group_state["is_new"]` and `has_alert` is not set. -/
def mkPostProcessJob (event : EventRec) (group_state : GroupStateRec)
    (is_reprocessed : Bool) : Job :=
  { event := event
  , group_state := group_state
  , is_reprocessed := is_reprocessed
  , has_reappeared := !(truthyOB group_state.is_new)
  , has_alert := none }

/-! ### Pipeline stage facts -/

theorem capture_group_stats_fst (env : Env) (job : Job) :
    (capture_group_stats env job).1 = job := by
  unfold capture_group_stats
  split <;> rfl

theorem process_inbox_adds_fst (env : Env) (job : Job) :
    (process_inbox_adds env job).1 = job := by
  unfold process_inbox_adds
  split
  · rfl
  split
  · split
    · rfl
    split <;> rfl
  · rfl

theorem handle_owner_assignment_fst (env : Env) (job : Job) :
    (handle_owner_assignment env job).1 = job := by
  cases hrep : job.is_reprocessed <;>
    cases he : env.owners_exist && env.assignees_exist <;>
    cases hk : env.killswitch_autoassign <;>
    rcases hw : env.autoassign.owners with _ | ⟨o, os⟩ <;>
    simp [handle_owner_assignment, hrep, he, hk, hw]

/-! ### Shared concrete inputs for the pipeline claims -/

def defaultAutoassign : AutoassignResult :=
  { auto_assignment := true, owners := [7], assigned_by_codeowners := false,
    owner_source := ["ownership_rule"] }

def defaultEnv : Env :=
  { snooze := none, owners_exist := false, assignees_exist := false,
    killswitch_autoassign := false, autoassign := defaultAutoassign,
    groupowner_lock_acquired := true, rules_has_alert := false,
    commit_lock_acquired := true, org_has_commit := true,
    group_commit_debounced := false, feature_commit_context := false,
    feature_servicehooks := false, servicehooks := [],
    should_send_error_created_hooks := false, plugins := [] }

def sampleEvent : EventRec :=
  { event_id := "ev1", project_id := 1, group_id := some 10,
    group_platform := some "python", issue_category := .error, event_type_error := true }

/-! ### C7 -/

/-- C7: for every error-category job and every fault pattern `raises`, the
pipeline invokes exactly the twelve stages, once each, in the fixed order;
an exception raised by any stage is caught and does not prevent any
subsequent stage from being invoked. -/
theorem C7_pipeline_order (env : Env) (raises : StageId → Bool) (job : Job)
    (hcat : job.event.issue_category = GroupCategory.error) :
    (run_post_process_job (stageExecFaulty env raises) job).2.2 =
      [.capture_group_stats, .process_snoozes, .process_inbox_adds,
       .handle_owner_assignment, .process_rules, .process_commits,
       .process_service_hooks, .process_resource_change_bounds, .process_plugins,
       .process_similarity, .update_existing_attachments, .fire_error_processed] := by
  simp [run_post_process_job, hcat, GROUP_CATEGORY_POST_PROCESS_PIPELINE, runPipelineSteps]

theorem C7_pipeline_order_witness :
    sampleEvent.issue_category = GroupCategory.error ∧
    (run_post_process_job
        (stageExecFaulty defaultEnv (fun s => s == StageId.process_rules))
        (mkPostProcessJob sampleEvent
          { id := some 10, is_new := some true, is_regression := some false,
            is_new_group_environment := some false } false)).2.2 =
      [.capture_group_stats, .process_snoozes, .process_inbox_adds,
       .handle_owner_assignment, .process_rules, .process_commits,
       .process_service_hooks, .process_resource_change_bounds, .process_plugins,
       .process_similarity, .update_existing_attachments, .fire_error_processed] :=
  ⟨rfl, C7_pipeline_order defaultEnv (fun s => s == StageId.process_rules) _ rfl⟩

/-! ### C3 -/

def c3Job : Job :=
  mkPostProcessJob sampleEvent
    { id := some 10, is_new := some true, is_regression := some false,
      is_new_group_environment := some false } true

/-- C3 counterexample: for a concrete reprocessed job over a new group,
`fire_error_processed` returns immediately (its body opens with
`if job["is_reprocessed"]: return`), so the `event_processed` signal is
not emitted — refuting the claim's final conjunct. -/
theorem C3_counterexample :
    c3Job.is_reprocessed = true ∧ truthyOB c3Job.group_state.is_new = true ∧
    fire_error_processed defaultEnv c3Job = (c3Job, []) ∧
    Effect.signalEventProcessed ∉ (runErrorPipeline defaultEnv c3Job).2.1 := by
  decide

/-- C3 (amended): for every reprocessed job over a new group in the error
category, the full pipeline trace is the stage-1 unique-events metric
(when the group has a platform), the REPROCESSED inbox add, and the
attachment rebind; every other stage contributes nothing, and in
particular `fire_error_processed` does not emit `event_processed`. -/
theorem C3_reprocessed_trace (env : Env) (job : Job)
    (hcat : job.event.issue_category = GroupCategory.error)
    (hrep : job.is_reprocessed = true)
    (hnew : truthyOB job.group_state.is_new = true) :
    (runErrorPipeline env job).2.1 =
      (if job.event.group_platform.isSome then [Effect.metricsIncrUnique] else []) ++
      [Effect.inboxAdd .reprocessed none,
       Effect.attachmentsBindGroup job.event.project_id job.event.event_id
         job.event.group_id] ∧
    Effect.signalEventProcessed ∉ (runErrorPipeline env job).2.1 := by
  have htr : (runErrorPipeline env job).2.1 =
      (if job.event.group_platform.isSome then [Effect.metricsIncrUnique] else []) ++
      [Effect.inboxAdd .reprocessed none,
       Effect.attachmentsBindGroup job.event.project_id job.event.event_id
         job.event.group_id] := by
    rcases hp : job.event.group_platform with _ | p <;>
      simp [runErrorPipeline, run_post_process_job, hcat,
        GROUP_CATEGORY_POST_PROCESS_PIPELINE, runPipelineSteps, stageExecOf, runStage,
        capture_group_stats, process_snoozes, process_inbox_adds, handle_owner_assignment,
        process_rules, process_commits, process_service_hooks,
        process_resource_change_bounds, process_plugins, process_similarity,
        update_existing_attachments, fire_error_processed, should_write_event_stats,
        hrep, hnew, hp]
  refine ⟨htr, ?_⟩
  rw [htr]
  rcases job.event.group_platform.isSome <;> simp

theorem C3_reprocessed_trace_witness :
    c3Job.event.issue_category = GroupCategory.error ∧
    c3Job.is_reprocessed = true ∧ truthyOB c3Job.group_state.is_new = true ∧
    ((runErrorPipeline defaultEnv c3Job).2.1 =
      (if c3Job.event.group_platform.isSome then [Effect.metricsIncrUnique] else []) ++
      [Effect.inboxAdd .reprocessed none,
       Effect.attachmentsBindGroup c3Job.event.project_id c3Job.event.event_id
         c3Job.event.group_id] ∧
     Effect.signalEventProcessed ∉ (runErrorPipeline defaultEnv c3Job).2.1) :=
  ⟨rfl, rfl, rfl, C3_reprocessed_trace defaultEnv c3Job rfl rfl rfl⟩

/-! ### C4 -/

def c4Env : Env := { defaultEnv with owners_exist := true, assignees_exist := false }

def c4Job : Job :=
  mkPostProcessJob sampleEvent
    { id := some 10, is_new := some false, is_regression := some false,
      is_new_group_environment := some false } false

/-- C4 counterexample: with cached group owners existing but no cached
assignees, the stage still computes auto-assign owners and assigns the
first owner (it returns early only when owners AND assignees both exist),
skipping only the GroupOwner reconciliation — refuting the claim that
owner existence alone suppresses the computation. -/
theorem C4_counterexample :
    c4Env.owners_exist = true ∧ c4Job.is_reprocessed = false ∧
    handle_owner_assignment c4Env c4Job =
      (c4Job, [Effect.getAutoassignOwners, Effect.assignToFirstOwner 7]) := by
  decide

/-- C4 (amended): for a non-reprocessed job, auto-assign owners are
computed iff NOT (cached owners exist AND cached assignees exist) and the
auto-assignment killswitch is off; when owners and assignees BOTH exist
the stage performs no computation, no assignment and no reconciliation. -/
theorem C4_owner_assignment (env : Env) (job : Job)
    (hrep : job.is_reprocessed = false) :
    (Effect.getAutoassignOwners ∈ (handle_owner_assignment env job).2 ↔
       ¬(env.owners_exist = true ∧ env.assignees_exist = true) ∧
         env.killswitch_autoassign = false) ∧
    (env.owners_exist = true → env.assignees_exist = true →
       handle_owner_assignment env job = (job, [])) := by
  constructor
  · cases ho : env.owners_exist <;> cases ha : env.assignees_exist <;>
      cases hk : env.killswitch_autoassign <;>
      cases hau : env.autoassign.auto_assignment <;>
      cases hl : env.groupowner_lock_acquired <;>
      rcases hw : env.autoassign.owners with _ | ⟨o, os⟩ <;>
      simp [handle_owner_assignment, handle_group_owners, hrep, ho, ha, hk, hau, hl, hw]
  · intro ho ha
    simp [handle_owner_assignment, hrep, ho, ha]

theorem C4_owner_assignment_witness :
    c4Job.is_reprocessed = false ∧
    ((Effect.getAutoassignOwners ∈ (handle_owner_assignment c4Env c4Job).2 ↔
       ¬(c4Env.owners_exist = true ∧ c4Env.assignees_exist = true) ∧
         c4Env.killswitch_autoassign = false) ∧
     (c4Env.owners_exist = true → c4Env.assignees_exist = true →
       handle_owner_assignment c4Env c4Job = (c4Job, []))) :=
  ⟨rfl, C4_owner_assignment c4Env c4Job rfl⟩

/-! ### C6 -/

/-- C6: the snooze state machine, for jobs entering the stage with
`is_reprocessed = false` and `has_reappeared = true`: no snooze, or a
still-valid snooze, ends with `has_reappeared = false` and no effect; an
exceeded snooze adds the group to the inbox with reason UNIGNORED and the
snooze thresholds, records group history UNIGNORED, creates a
SET_UNRESOLVED activity, deletes the snooze, sets the group status to
UNRESOLVED, emits `issue_unignored` with transition type "automatic" (in
that order), and ends with `has_reappeared = true`. -/
theorem C6_snooze_state_machine (env : Env) (job : Job)
    (hrep : job.is_reprocessed = false) (happ : job.has_reappeared = true) :
    (env.snooze = none →
      process_snoozes env job = ({ job with has_reappeared := false }, [])) ∧
    (∀ sn, env.snooze = some sn → sn.valid = true →
      process_snoozes env job = ({ job with has_reappeared := false }, [])) ∧
    (∀ sn, env.snooze = some sn → sn.valid = false →
      process_snoozes env job =
        ({ job with has_reappeared := true },
         [.inboxAdd .unignored (some sn.details), .groupHistoryUnignored,
          .activitySetUnresolved, .snoozeDelete, .groupStatusUnresolved,
          .signalIssueUnignored "automatic"])) := by
  refine ⟨fun h => ?_, fun sn h hv => ?_, fun sn h hv => ?_⟩
  · simp [process_snoozes, hrep, happ, h]
  · simp [process_snoozes, hrep, happ, h, hv]
  · simp [process_snoozes, hrep, happ, h, hv]

def c6Snooze : SnoozeRec :=
  { details := { until_ts := some 100, count := some 5, window := some 60,
                 user_count := none, user_window := none },
    valid := false }

def c6Env : Env := { defaultEnv with snooze := some c6Snooze }

def c6Job : Job :=
  mkPostProcessJob sampleEvent
    { id := some 10, is_new := some false, is_regression := some true,
      is_new_group_environment := some false } false

theorem C6_snooze_state_machine_witness :
    c6Job.is_reprocessed = false ∧ c6Job.has_reappeared = true ∧
    c6Env.snooze = some c6Snooze ∧ c6Snooze.valid = false ∧
    process_snoozes c6Env c6Job =
      ({ c6Job with has_reappeared := true },
       [.inboxAdd .unignored (some c6Snooze.details), .groupHistoryUnignored,
        .activitySetUnresolved, .snoozeDelete, .groupStatusUnresolved,
        .signalIssueUnignored "automatic"]) :=
  ⟨rfl, rfl, rfl, rfl, (C6_snooze_state_machine c6Env c6Job rfl rfl).2.2 c6Snooze rfl rfl⟩

/-! ### C10 -/

/-- C10: every job built by `post_process_group` starts with
`has_reappeared` equal to the negation of `group_state["is_new"]`; hence
for a new, non-reprocessed group, `process_snoozes` returns the job
unchanged with no effects for EVERY environment (it never consults the
snooze cache), the job entering `process_inbox_adds` and the job entering
`process_rules` both carry `has_reappeared = false`, and the rule
processor is invoked with `has_reappeared = false`. -/
theorem C10_has_reappeared_init (event : EventRec) (gs : GroupStateRec)
    (rep : Bool) (env : Env) (hnew : truthyOB gs.is_new = true) :
    (mkPostProcessJob event gs rep).has_reappeared = !(truthyOB gs.is_new) ∧
    process_snoozes env (mkPostProcessJob event gs false) =
      (mkPostProcessJob event gs false, []) ∧
    (runPipelineSteps (stageExecOf env)
      [StageId.capture_group_stats, StageId.process_snoozes]
      (mkPostProcessJob event gs false)).1.has_reappeared = false ∧
    (runPipelineSteps (stageExecOf env)
      [StageId.capture_group_stats, StageId.process_snoozes, StageId.process_inbox_adds,
       StageId.handle_owner_assignment]
      (mkPostProcessJob event gs false)).1.has_reappeared = false ∧
    (process_rules env
      (runPipelineSteps (stageExecOf env)
        [StageId.capture_group_stats, StageId.process_snoozes, StageId.process_inbox_adds,
         StageId.handle_owner_assignment]
        (mkPostProcessJob event gs false)).1).2 =
      [Effect.rulesProcessorRun gs.is_new gs.is_regression gs.is_new_group_environment
        false] := by
  have hfalse : (mkPostProcessJob event gs false).has_reappeared = false := by
    simp [mkPostProcessJob, hnew]
  have hsn : process_snoozes env (mkPostProcessJob event gs false) =
      (mkPostProcessJob event gs false, []) := by
    simp [process_snoozes, mkPostProcessJob, hnew]
  have h2 : (runPipelineSteps (stageExecOf env)
      [StageId.capture_group_stats, StageId.process_snoozes]
      (mkPostProcessJob event gs false)).1 = mkPostProcessJob event gs false := by
    simp [runPipelineSteps, stageExecOf, runStage, capture_group_stats_fst, hsn]
  have h4 : (runPipelineSteps (stageExecOf env)
      [StageId.capture_group_stats, StageId.process_snoozes, StageId.process_inbox_adds,
       StageId.handle_owner_assignment]
      (mkPostProcessJob event gs false)).1 = mkPostProcessJob event gs false := by
    simp [runPipelineSteps, stageExecOf, runStage, capture_group_stats_fst, hsn,
      process_inbox_adds_fst, handle_owner_assignment_fst]
  refine ⟨rfl, hsn, ?_, ?_, ?_⟩
  · rw [h2]; exact hfalse
  · rw [h4]; exact hfalse
  · rw [h4]; simp [process_rules, mkPostProcessJob, hnew]

def c10gs : GroupStateRec :=
  { id := some 11, is_new := some true, is_regression := some false,
    is_new_group_environment := some true }

theorem C10_has_reappeared_init_witness :
    truthyOB c10gs.is_new = true ∧
    ((mkPostProcessJob sampleEvent c10gs true).has_reappeared =
        !(truthyOB c10gs.is_new) ∧
     process_snoozes defaultEnv (mkPostProcessJob sampleEvent c10gs false) =
        (mkPostProcessJob sampleEvent c10gs false, []) ∧
     (runPipelineSteps (stageExecOf defaultEnv)
        [StageId.capture_group_stats, StageId.process_snoozes]
        (mkPostProcessJob sampleEvent c10gs false)).1.has_reappeared = false ∧
     (runPipelineSteps (stageExecOf defaultEnv)
        [StageId.capture_group_stats, StageId.process_snoozes, StageId.process_inbox_adds,
         StageId.handle_owner_assignment]
        (mkPostProcessJob sampleEvent c10gs false)).1.has_reappeared = false ∧
     (process_rules defaultEnv
        (runPipelineSteps (stageExecOf defaultEnv)
          [StageId.capture_group_stats, StageId.process_snoozes, StageId.process_inbox_adds,
           StageId.handle_owner_assignment]
          (mkPostProcessJob sampleEvent c10gs false)).1).2 =
        [Effect.rulesProcessorRun c10gs.is_new c10gs.is_regression
          c10gs.is_new_group_environment false]) :=
  ⟨rfl, C10_has_reappeared_init sampleEvent c10gs true defaultEnv rfl⟩
